import Mathlib

/-!
# Skin2Solid: a shallow embedding of `skin2solid.py`

This file embeds the core of the Skin2Solid Blender add-on
(`src/skin2solid.py`) as executable Lean definitions and proves properties
of the embedded program.

Modelling conventions:
* Host objects, collections and armature data-blocks are identified by
  numeric ids / names; `Scene.nextId` is the source of fresh ids for the
  host's `copy()` and `collections.new` calls.
* `bpy` pointer references (`settings.rig`, the collection properties,
  modifier targets) are `Option Nat` ids; a pointer that is `none` models
  Python `None`.
* Weights are rationals; the host's floats carry exact values here.
* Opaque host operators (`origin_set`, `nla.bake`, keep-transform
  parenting) are modelled by their documented post-state on the scene:
  a flag or field recording that the operation was applied.
* A host call that raises an uncaught Python exception (for example the
  `KeyError` from `bpy.data.armatures["Armature"]`) is modelled by an
  `Option Scene` result of `none`.
* Removing members of a `bpy` collection while iterating it is not
  well-defined host behaviour; those loops are modelled by their evident
  effect (remove every matching member), and loops that iterate a
  collection whose membership the body changes are modelled as iterating
  the member list captured at loop entry.
-/

inductive ObjType where
  | MESH
  | ARMATURE
  | OTHER
deriving DecidableEq

inductive PosePos where
  | REST
  | POSE
deriving DecidableEq

inductive ModType where
  | ARMATURE
  | OTHER
deriving DecidableEq

/-- A modifier on an object: its kind and its target object reference
(`mod.object`). -/
structure Modifier where
  mtype : ModType
  object : Option Nat
deriving DecidableEq

/-- One mesh vertex: its `vert.groups` list of (vertex-group index, weight)
deform entries. -/
structure MeshVertex where
  groups : List (Nat × ℚ)
deriving DecidableEq

/-- A mesh data-block: name, vertices and faces (faces are index lists into
the vertex sequence). -/
structure MeshData where
  mname : String
  vertices : List MeshVertex
  faces : List (List Nat)
deriving DecidableEq

/-- An armature data-block (an element of `bpy.data.armatures`): its name,
its bone names, and the single pose-state flag `pose_position`. -/
structure ArmData where
  aname : String
  bones : List String
  pose_position : PosePos
deriving DecidableEq

/-- The data-block owned by an object: a mesh (owned copy), an armature
data-block reference by name, or something else. -/
inductive ObjData where
  | mesh (m : MeshData)
  | armature (aname : String)
  | other
deriving DecidableEq

/-- A scene object. `vertex_groups` holds the group names; a group's
`index` is its position in this list. `parentBone` models a bone parenting
relation `(rig object id, bone name)`. `originCentered` records that the
host `origin_set(type='ORIGIN_CENTER_OF_VOLUME')` operator was applied, and
`animBaked` records the frame range of an applied `nla.bake`. -/
structure Obj where
  oid : Nat
  name : String
  data : ObjData
  vertex_groups : List String
  modifiers : List Modifier
  parentBone : Option (Nat × String)
  selected : Bool
  originCentered : Bool
  animBaked : Option (Int × Int)
deriving DecidableEq

/-- The `obj.type` enum derived from the owned data. -/
def Obj.type (o : Obj) : ObjType :=
  match o.data with
  | ObjData.mesh _ => ObjType.MESH
  | ObjData.armature _ => ObjType.ARMATURE
  | ObjData.other => ObjType.OTHER

/-- A collection: id, name and the ids of its linked objects. -/
structure Collection where
  cid : Nat
  cname : String
  objIds : List Nat
deriving DecidableEq

/-- The `Skin2SolidSettings` property group. -/
structure Settings where
  objs_collection_original : Option Nat
  objs_collection_created : Option Nat
  rig : Option Nat
  is_objects_prepared : Bool
  bake_frame_start : Int
  bake_frame_end : Int
  name_suffix : String
  weight_threshold : ℚ
deriving DecidableEq

/-- The scene state: all objects, all collections, all armature
data-blocks, the settings, the active object, the active bone and the
interaction mode. -/
structure Scene where
  objects : List Obj
  collections : List Collection
  armatures : List ArmData
  settings : Settings
  activeObj : Option Nat
  activeBone : Option String
  mode : String
  nextId : Nat
deriving DecidableEq

def findObj (objs : List Obj) (i : Nat) : Option Obj :=
  objs.find? (fun o => o.oid == i)

def findColl (cols : List Collection) (i : Nat) : Option Collection :=
  cols.find? (fun c => c.cid == i)

def getObj (sc : Scene) (i : Nat) : Option Obj :=
  findObj sc.objects i

def getColl (sc : Scene) (i : Nat) : Option Collection :=
  findColl sc.collections i

def updateObj (sc : Scene) (i : Nat) (f : Obj → Obj) : Scene :=
  { sc with objects := sc.objects.map (fun o => if o.oid == i then f o else o) }

def linkToCollection (cols : List Collection) (cid oid : Nat) : List Collection :=
  cols.map (fun c => if c.cid == cid then { c with objIds := c.objIds ++ [oid] } else c)

/-- `collection.objects.unlink(obj)`. -/
def unlinkFromCollection (sc : Scene) (cid oid : Nat) : Scene :=
  { sc with collections := sc.collections.map (fun c =>
      if c.cid == cid then { c with objIds := c.objIds.filter (fun i => i != oid) } else c) }

/-- `bpy.data.objects.remove(obj)`: drop the object and every link to it. -/
def removeObject (sc : Scene) (oid : Nat) : Scene :=
  { sc with
      objects := sc.objects.filter (fun o => o.oid != oid),
      collections := sc.collections.map (fun c =>
        { c with objIds := c.objIds.filter (fun i => i != oid) }) }

def deselectAll (sc : Scene) : Scene :=
  { sc with objects := sc.objects.map (fun o => { o with selected := false }) }

/-! ## Python string replacement

`s.replace(old, "")` for a string `old`: scan left to right, removing each
non-overlapping occurrence of `old` and continuing after it. -/

/-- Does `pat` start the list `s`? -/
def startsWithSeq (pat s : List Char) : Bool :=
  decide (pat = s.take pat.length)

/-- The scanner behind `pyReplace`. The counter holds how many characters of
a matched occurrence are still to be discarded. -/
def stripOccAux (pat : List Char) : Nat → List Char → List Char
  | _, [] => []
  | Nat.succ k, _ :: rest => stripOccAux pat k rest
  | 0, c :: rest =>
    if startsWithSeq pat (c :: rest) ∧ pat ≠ [] then
      stripOccAux pat (pat.length - 1) rest
    else
      c :: stripOccAux pat 0 rest

/-- Remove every (left-to-right, non-overlapping) occurrence of `pat`. -/
def stripOcc (pat s : List Char) : List Char :=
  stripOccAux pat 0 s

/-- Python `s.replace(old, "")`. -/
def pyReplace (s old : String) : String :=
  String.mk (stripOcc old.data s.data)

/-- Does `pat` occur contiguously inside `s`? -/
def occursB (pat : List Char) : List Char → Bool
  | [] => pat.isEmpty
  | c :: rest => startsWithSeq pat (c :: rest) || occursB pat rest

/-- `p` has no border: no proper nonempty prefix of `p` is also a suffix of
`p`. -/
def unbordered (p : List Char) : Bool :=
  (List.range p.length).all (fun k => k == 0 || decide (p.take k ≠ p.drop (p.length - k)))

/-- Line 74: the partitioned duplicate's name,
`f"{mesh_obj.name}_{group.name}".replace(settings.name_suffix, "") +
settings.name_suffix`. -/
def partitionName (objName groupName suffix : String) : String :=
  pyReplace (objName ++ "_" ++ groupName) suffix ++ suffix

/-! ## Mesh partitioning (`separate_mesh_by_vertex_groups`) -/

/-- Lines 35-38: the per-vertex (group index, weight) table of the original
mesh, captured before any duplication. -/
def weightTable (md : MeshData) : List (List (Nat × ℚ)) :=
  md.vertices.map (fun v => v.groups)

/-- Lines 53-64: vertex with entries `gd` is appended to `to_delete` for the
group of index `gidx` iff it has no entry for that group, or some entry for
that group has weight strictly below the threshold. -/
def markedForDeletion (gd : List (Nat × ℚ)) (gidx : Nat) (t : ℚ) : Bool :=
  ((gd.filter (fun p => p.1 == gidx)).length == 0)
    || gd.any (fun p => p.1 == gidx && decide (p.2 < t))

/-- The vertex indices that survive `bmesh.ops.delete` for group `gidx`. -/
def keptIndices (table : List (List (Nat × ℚ))) (gidx : Nat) (t : ℚ) : List Nat :=
  (List.range table.length).filter (fun i => !(markedForDeletion (table.getD i []) gidx t))

/-- Lines 47-71: delete the marked vertices from the duplicate's mesh; faces
that reference a deleted vertex are deleted, the rest are reindexed. -/
def deleteVerts (md : MeshData) (table : List (List (Nat × ℚ))) (gidx : Nat) (t : ℚ) :
    MeshData :=
  let kept := keptIndices table gidx t
  { md with
      vertices := kept.filterMap (fun i => md.vertices.get? i),
      faces := md.faces.filterMap (fun f =>
        if f.all (fun v => kept.contains v) then some (f.map (fun v => kept.indexOf v))
        else none) }

/-- The mesh data name of an object, when it owns a mesh. -/
def meshNameOf (o : Obj) : Option String :=
  match o.data with
  | ObjData.mesh m => some m.mname
  | _ => none

/-- The vertices of an object's mesh, when it owns a mesh. -/
def meshVerticesOf (o : Obj) : Option (List MeshVertex) :=
  match o.data with
  | ObjData.mesh m => some m.vertices
  | _ => none

/-- Lines 42-84, one loop iteration: the duplicate produced for the group of
index `gidx` and name `gname`, with the marked vertices deleted, the
deterministic name applied to the object and its mesh data, and the vertex
groups reduced to the relevant one (the removal loop's effect: every group
other than `gname` is removed; a fresh group is appended when `gname` was
absent). -/
def mkPartObj (mesh_obj : Obj) (md : MeshData) (table : List (List (Nat × ℚ))) (t : ℚ)
    (suffix : String) (newId gidx : Nat) (gname : String) : Obj :=
  let newName := partitionName mesh_obj.name gname suffix
  { mesh_obj with
      oid := newId,
      name := newName,
      data := ObjData.mesh { deleteVerts md table gidx t with mname := newName },
      vertex_groups :=
        if gname ∈ mesh_obj.vertex_groups then
          mesh_obj.vertex_groups.filter (fun n => n == gname)
        else
          mesh_obj.vertex_groups ++ [gname] }

/-- Lines 41-84: the loop over `enumerate(mesh_obj.vertex_groups)`. Each
iteration copies the object (fresh id), links the duplicate into the
created-objects collection, and rewrites it with `mkPartObj`. -/
def partitionLoopGroups (mesh_obj : Obj) (md : MeshData) (table : List (List (Nat × ℚ)))
    (t : ℚ) (suffix : String) (cid : Nat) : List (Nat × String) → Scene → Scene
  | [], sc => sc
  | (gidx, gname) :: rest, sc =>
    let dup := mkPartObj mesh_obj md table t suffix sc.nextId gidx gname
    partitionLoopGroups mesh_obj md table t suffix cid rest
      { sc with
          objects := sc.objects ++ [dup],
          collections := linkToCollection sc.collections cid dup.oid,
          nextId := sc.nextId + 1 }

/-- Lines 17-88: `separate_mesh_by_vertex_groups(mesh_obj)`. Non-mesh input
and an unset created-objects collection are no-ops; otherwise produce one
duplicate per vertex group from the original weight table, then unlink and
remove the original object. -/
def separate_mesh_by_vertex_groups (sc : Scene) (oid : Nat) : Scene :=
  match getObj sc oid with
  | none => sc
  | some mesh_obj =>
    match mesh_obj.data with
    | ObjData.mesh md =>
      match sc.settings.objs_collection_created with
      | none => sc
      | some cid =>
        let table := weightTable md
        let sc1 := partitionLoopGroups mesh_obj md table sc.settings.weight_threshold
          sc.settings.name_suffix cid mesh_obj.vertex_groups.enum sc
        removeObject (unlinkFromCollection sc1 cid oid) oid
    | _ => sc

/-- The duplicates the group loop produces, with ids starting at `n`. -/
def partDupsOf (mesh_obj : Obj) (md : MeshData) (table : List (List (Nat × ℚ))) (t : ℚ)
    (suffix : String) : Nat → List (Nat × String) → List Obj
  | _, [] => []
  | n, (gidx, gname) :: rest =>
    mkPartObj mesh_obj md table t suffix n gidx gname ::
      partDupsOf mesh_obj md table t suffix (n + 1) rest

def linkMany (cols : List Collection) (cid : Nat) (ids : List Nat) : List Collection :=
  ids.foldl (fun cs i => linkToCollection cs cid i) cols

/-! ## Settings updates

Lines 375-399: the three pointer properties are declared with
`update=update_property`; the host runs the update hook on every assignment
through the property system, so assigning any of them clears
`is_objects_prepared`. -/

/-- Lines 375-377: `update_property`. -/
def update_property (s : Settings) : Settings :=
  { s with is_objects_prepared := false }

/-- Assigning `settings.objs_collection_original` (update hook included). -/
def Settings.setOriginal (s : Settings) (v : Option Nat) : Settings :=
  update_property { s with objs_collection_original := v }

/-- Assigning `settings.objs_collection_created` (update hook included). -/
def Settings.setCreated (s : Settings) (v : Option Nat) : Settings :=
  update_property { s with objs_collection_created := v }

/-- Assigning `settings.rig` (update hook included). -/
def Settings.setRig (s : Settings) (v : Option Nat) : Settings :=
  update_property { s with rig := v }

/-! ## Working-collection materialization -/

/-- Lines 180-209: `should_object_be_processed(obj)`. -/
def should_object_be_processed (sc : Scene) (obj : Obj) : Bool :=
  match sc.settings.rig with
  | none => false
  | some rid =>
    if obj.type != ObjType.MESH then false
    else if obj.vertex_groups.length == 0 then false
    else obj.modifiers.any (fun m => m.mtype == ModType.ARMATURE && m.object == some rid)

/-- Lines 212-225: `create_new_collection(name)`, linked under the scene. -/
def create_new_collection (sc : Scene) (name : String) : Scene × Nat :=
  let c : Collection := { cid := sc.nextId, cname := name, objIds := [] }
  ({ sc with collections := sc.collections ++ [c], nextId := sc.nextId + 1 }, c.cid)

/-- Lines 252-257: the top-level working copy of a source object: fresh id,
`obj.name + suffix`, and the mesh data copied and renamed
`obj.data.name + suffix`. -/
def dupForWorking (obj : Obj) (suffix : String) (newId : Nat) : Obj :=
  { obj with
      oid := newId,
      name := obj.name ++ suffix,
      data :=
        match obj.data with
        | ObjData.mesh md => ObjData.mesh { md with mname := md.mname ++ suffix }
        | d => d }

/-- Lines 247-257: the loop over the source collection's objects. Eligible
objects become the active object, are duplicated and linked into the new
collection. -/
def materializeLoop (suffix : String) (cid : Nat) : List Nat → Scene → Scene
  | [], sc => sc
  | oid :: rest, sc =>
    match getObj sc oid with
    | none => materializeLoop suffix cid rest sc
    | some obj =>
      if should_object_be_processed sc obj then
        materializeLoop suffix cid rest
          { sc with
              activeObj := some oid,
              objects := sc.objects ++ [dupForWorking obj suffix sc.nextId],
              collections := linkToCollection sc.collections cid
                (dupForWorking obj suffix sc.nextId).oid,
              nextId := sc.nextId + 1 }
      else materializeLoop suffix cid rest sc

/-- Lines 228-260: `create_working_collection()`. Returns the updated scene
and the id of the created collection (`None` when the source collection is
unset). Storing the result in `settings.objs_collection_created` runs that
property's update hook. -/
def create_working_collection (sc : Scene) : Scene × Option Nat :=
  match sc.settings.objs_collection_original with
  | none => (sc, none)
  | some cidO =>
    match getColl sc cidO with
    | none => (sc, none)
    | some collO =>
      let p := create_new_collection sc (collO.cname ++ sc.settings.name_suffix)
      let sc2 := materializeLoop sc.settings.name_suffix p.2 collO.objIds p.1
      ({ sc2 with settings := Settings.setCreated sc2.settings (some p.2) }, some p.2)

/-! ## Rig pose, modifiers, origins, parenting -/

def setPosePositionByName (arms : List ArmData) (nm : String) (p : PosePos) : List ArmData :=
  arms.map (fun a => if a.aname == nm then { a with pose_position := p } else a)

/-- Lines 91-105: `set_rig_to_rest_pose(rig)`. A non-armature argument is a
reported no-op; otherwise the pose flag of the data-block looked up globally
by the fixed name `"Armature"` is set to REST. A missing `"Armature"` entry
raises `KeyError` (result `none`). -/
def set_rig_to_rest_pose (sc : Scene) (rid : Nat) : Option Scene :=
  match getObj sc rid with
  | none => none
  | some rig =>
    if rig.type != ObjType.ARMATURE then some sc
    else if sc.armatures.any (fun a => a.aname == "Armature") then
      some { sc with armatures := setPosePositionByName sc.armatures "Armature" PosePos.REST }
    else none

/-- Lines 121-128, one iteration: strip the armature modifiers of a mesh
object. -/
def clearModsStep (s : Scene) (oid : Nat) : Scene :=
  updateObj s oid (fun o =>
    if o.type != ObjType.MESH then o
    else { o with modifiers := o.modifiers.filter (fun m => m.mtype != ModType.ARMATURE) })

/-- Lines 108-128: `clear_object_modifiers()`: remove the armature modifiers
of every mesh object in the created collection. -/
def clear_object_modifiers (sc : Scene) : Scene :=
  match sc.settings.objs_collection_created with
  | none => sc
  | some cid =>
    match getColl sc cid with
    | none => sc
    | some coll =>
      coll.objIds.foldl clearModsStep sc

/-- Lines 271-278, one iteration: select the mesh object alone, make it
active and apply the center-of-volume origin operator. -/
def originStep (s : Scene) (oid : Nat) : Scene :=
  match getObj s oid with
  | none => s
  | some o =>
    if o.type != ObjType.MESH then s
    else
      { updateObj (deselectAll s) oid
          (fun x => { x with selected := true, originCentered := true }) with
        activeObj := some oid }

/-- Lines 263-278: `set_object_origins_to_center()`: for every mesh object
in the created collection, select it alone, make it active and apply the
center-of-volume origin operator. -/
def set_object_origins_to_center (sc : Scene) : Scene :=
  match sc.settings.objs_collection_created with
  | none => sc
  | some cid =>
    match getColl sc cid with
    | none => sc
    | some coll =>
      coll.objIds.foldl originStep { sc with mode := "OBJECT" }

/-- Lines 141-174, one iteration: clear the mesh object's parent keeping
its transform, then parent it to the bone named by its first vertex group
(objects without groups or without a matching bone are skipped). -/
def parentStep (rid : Nat) (arm : ArmData) (s : Scene) (oid : Nat) : Scene :=
  match getObj s oid with
  | none => s
  | some o =>
    if o.type != ObjType.MESH then s
    else
      match o.vertex_groups.head? with
      | none => s
      | some bone_name =>
        if !(arm.bones.contains bone_name) then s
        else
          let s1 := deselectAll { s with mode := "OBJECT" }
          let s2 := { updateObj s1 oid (fun x => { x with selected := true }) with
                      activeObj := some oid }
          let s3 := updateObj s2 oid (fun x => { x with parentBone := none })
          let s4 := { updateObj s3 rid (fun x => { x with selected := true }) with
                      activeObj := some rid, mode := "POSE", activeBone := some bone_name }
          updateObj s4 oid (fun x => { x with parentBone := some (rid, bone_name) })

/-- Lines 131-177: `parent_objects_to_corresponding_bones()`. An unset
created collection or rig, or a rig without armature data, raises on
attribute access (result `none`). Each mesh object with vertex groups whose
first group names an existing bone is re-parented to that bone with keep
transform; finally the mode returns to OBJECT and the rig's own data is
switched to POSE. -/
def parent_objects_to_corresponding_bones (sc : Scene) : Option Scene :=
  match sc.settings.objs_collection_created with
  | none => none
  | some cid =>
  match getColl sc cid with
  | none => none
  | some coll =>
  match sc.settings.rig with
  | none => none
  | some rid =>
  match getObj sc rid with
  | none => none
  | some rig =>
  match rig.data with
  | ObjData.armature an =>
    match sc.armatures.find? (fun a => a.aname == an) with
    | none => none
    | some arm =>
      let sc1 := coll.objIds.foldl (parentStep rid arm) sc
      some { sc1 with
               mode := "OBJECT",
               armatures := setPosePositionByName sc1.armatures an PosePos.POSE }
  | _ => none

/-! ## Preparation orchestrator -/

/-- Lines 304-309, one iteration: separate a mesh object with more than
one vertex group. -/
def partitionPhaseStep (s : Scene) (oid : Nat) : Scene :=
  match getObj s oid with
  | none => s
  | some o =>
    match o.data with
    | ObjData.mesh _ =>
      if o.vertex_groups.length > 1 then separate_mesh_by_vertex_groups s oid else s
    | _ => s

/-- Lines 304-309: partition every mesh object of the created collection
that has more than one vertex group (member list captured at loop entry). -/
def partitionPhase (sc : Scene) (cid : Nat) : Scene :=
  match getColl sc cid with
  | none => sc
  | some coll =>
    coll.objIds.foldl partitionPhaseStep sc

/-- Lines 281-322: `prepare_objects()`. With an unset collection or rig it
reports and returns; otherwise it materializes the working collection,
partitions the multi-group meshes, sets the rig to rest pose, clears the
armature modifiers, recenters origins, parents to bones, and finally sets
`is_objects_prepared` (a plain bool property, no update hook). -/
def prepare_objects (sc : Scene) : Option Scene :=
  match sc.settings.objs_collection_original with
  | none => some sc
  | some _ =>
  match sc.settings.rig with
  | none => some sc
  | some rid =>
    match create_working_collection sc with
    | (_, none) => none
    | (sc1, some cid) =>
      let sc2 := partitionPhase sc1 cid
      match set_rig_to_rest_pose sc2 rid with
      | none => none
      | some sc3 =>
        let sc4 := clear_object_modifiers sc3
        let sc5 := set_object_origins_to_center sc4
        match parent_objects_to_corresponding_bones sc5 with
        | none => none
        | some sc6 => some { sc6 with settings := { sc6.settings with is_objects_prepared := true } }

/-! ## Bake stage -/

/-- Lines 349-354, one iteration: select a mesh object of the created
collection and make it active. -/
def bakeSelectStep (s : Scene) (oid : Nat) : Scene :=
  match getObj s oid with
  | none => s
  | some o =>
    if o.type != ObjType.MESH then s
    else { updateObj s oid (fun x => { x with selected := true }) with activeObj := some oid }

/-- Lines 343-357: the body of `bake_animation` after the active-object
fix-up: object mode, deselect all, select every mesh object of the created
collection (each becoming active), then `nla.bake` over the configured
frame range with visual keying, baking only the selected objects to
object-level keys and clearing their constraints and parents. -/
def bakeBody (sc : Scene) (cid : Nat) : Scene :=
  match getColl sc cid with
  | none => sc
  | some coll =>
    let sc2 := coll.objIds.foldl bakeSelectStep (deselectAll { sc with mode := "OBJECT" })
    { sc2 with objects := sc2.objects.map (fun o =>
        if o.selected then
          { o with
              animBaked := some (sc2.settings.bake_frame_start, sc2.settings.bake_frame_end),
              parentBone := none }
        else o) }

/-- Lines 325-357: `bake_animation()`. Unset collection: report and return.
A missing active object is replaced by the collection's first object (or
the whole call returns when the collection is empty). -/
def bake_animation (sc : Scene) : Scene :=
  match sc.settings.objs_collection_created with
  | none => sc
  | some cid =>
    match getColl sc cid with
    | none => sc
    | some coll =>
      match sc.activeObj with
      | none =>
        match coll.objIds.head? with
        | none => sc
        | some h => bakeBody { sc with activeObj := some h } cid
      | some _ => bakeBody sc cid

/-- The three error reports `verify_operator` can emit. -/
inductive OpReport where
  | errCollectionNotSet
  | errRigNotSet
  | errNotPrepared
deriving DecidableEq

inductive OpStatus where
  | FINISHED
  | CANCELLED
deriving DecidableEq

/-- Lines 360-372: `verify_operator(operator, check_preparation)`: the first
failed check is reported; `none` means all checks passed. -/
def verify_operator (s : Settings) (check_preparation : Bool) : Option OpReport :=
  if s.objs_collection_original = none then some OpReport.errCollectionNotSet
  else if s.rig = none then some OpReport.errRigNotSet
  else if check_preparation && !s.is_objects_prepared then some OpReport.errNotPrepared
  else none

/-- Lines 447-457: `SKIN2SOLID_OT_bake_animation.execute`: verify with
`check_preparation=True`; on failure cancel with the report and touch
nothing, else run `bake_animation`. -/
def bake_execute (sc : Scene) : OpStatus × Option OpReport × Scene :=
  match verify_operator sc.settings true with
  | some r => (OpStatus.CANCELLED, some r, sc)
  | none => (OpStatus.FINISHED, none, bake_animation sc)

/-- The source objects of a run that pass the eligibility predicate, in
collection order. -/
def eligibleSrcs (sc : Scene) : List Nat → List Obj
  | [] => []
  | i :: rest =>
    match getObj sc i with
    | some o =>
      if should_object_be_processed sc o then o :: eligibleSrcs sc rest
      else eligibleSrcs sc rest
    | none => eligibleSrcs sc rest

/-- The working copies the materialization loop creates, with ids starting
at `n`. -/
def dupsOf (suffix : String) : Nat → List Obj → List Obj
  | _, [] => []
  | n, o :: rest => dupForWorking o suffix n :: dupsOf suffix (n + 1) rest

/-- The facts the prepare sequence carries between its steps: the armature
data-blocks and settings as left by the last step that touched them, a
resolvable created collection, and a resolvable armature-kind rig. -/
def PrepInv (A : List ArmData) (St : Settings) (cid rid : Nat) (an : String)
    (s : Scene) : Prop :=
  s.armatures = A ∧ s.settings = St ∧
  (findColl s.collections cid).isSome = true ∧
  (getObj s rid).map Obj.data = some (ObjData.armature an)

/-! ## Concrete instances used to evaluate the definitions -/

/-- The worked example of the spec: four vertices, groups `A` and `B`,
threshold 3/10. -/
def exampleMesh : MeshData :=
  { mname := "Body",
    vertices := [⟨[(0, mkRat 9 10)]⟩, ⟨[(0, mkRat 2 10)]⟩, ⟨[(1, 1)]⟩, ⟨[]⟩],
    faces := [] }

def exampleObj : Obj :=
  { oid := 1, name := "Body", data := ObjData.mesh exampleMesh,
    vertex_groups := ["A", "B"], modifiers := [], parentBone := none,
    selected := false, originCentered := false, animBaked := none }

def exampleScene : Scene :=
  { objects := [exampleObj],
    collections := [{ cid := 5, cname := "Work_Solid", objIds := [1] }],
    armatures := [],
    settings :=
      { objs_collection_original := none, objs_collection_created := some 5,
        rig := none, is_objects_prepared := false, bake_frame_start := 0,
        bake_frame_end := 250, name_suffix := "_Solid",
        weight_threshold := mkRat 3 10 },
    activeObj := none, activeBone := none, mode := "OBJECT", nextId := 10 }

/-- A mesh whose single vertex carries weight 6/10 for both groups: with
threshold 3/10 it qualifies for both sub-meshes. -/
def sharedVertexMesh : MeshData :=
  { mname := "Shared",
    vertices := [⟨[(0, mkRat 6 10), (1, mkRat 6 10)]⟩],
    faces := [] }

def sharedVertexObj : Obj :=
  { oid := 1, name := "Shared", data := ObjData.mesh sharedVertexMesh,
    vertex_groups := ["A", "B"], modifiers := [], parentBone := none,
    selected := false, originCentered := false, animBaked := none }

def sharedVertexScene : Scene :=
  { objects := [sharedVertexObj],
    collections := [{ cid := 5, cname := "Work_Solid", objIds := [1] }],
    armatures := [],
    settings :=
      { objs_collection_original := none, objs_collection_created := some 5,
        rig := none, is_objects_prepared := false, bake_frame_start := 0,
        bake_frame_end := 250, name_suffix := "_Solid",
        weight_threshold := mkRat 3 10 },
    activeObj := none, activeBone := none, mode := "OBJECT", nextId := 10 }

/-- A mesh where group `B` (index 1) has no qualifying vertex. -/
def emptyGroupMesh : MeshData :=
  { mname := "Lone", vertices := [⟨[(0, mkRat 9 10)]⟩], faces := [] }

def emptyGroupObj : Obj :=
  { oid := 1, name := "Lone", data := ObjData.mesh emptyGroupMesh,
    vertex_groups := ["A", "B"], modifiers := [], parentBone := none,
    selected := false, originCentered := false, animBaked := none }

def emptyGroupScene : Scene :=
  { objects := [emptyGroupObj],
    collections := [{ cid := 5, cname := "Work_Solid", objIds := [1] }],
    armatures := [],
    settings :=
      { objs_collection_original := none, objs_collection_created := some 5,
        rig := none, is_objects_prepared := false, bake_frame_start := 0,
        bake_frame_end := 250, name_suffix := "_Solid",
        weight_threshold := mkRat 3 10 },
    activeObj := none, activeBone := none, mode := "OBJECT", nextId := 10 }

/-- An already-suffixed object whose group name makes the suffix-stripping
recreate a suffix occurrence. -/
def namingCexMesh : MeshData :=
  { mname := "X_Solid", vertices := [⟨[(0, 1)]⟩], faces := [] }

def namingCexObj : Obj :=
  { oid := 1, name := "X_Solid", data := ObjData.mesh namingCexMesh,
    vertex_groups := ["Sol_Solidid"], modifiers := [], parentBone := none,
    selected := false, originCentered := false, animBaked := none }

def namingCexScene : Scene :=
  { objects := [namingCexObj],
    collections := [{ cid := 5, cname := "Work_Solid", objIds := [1] }],
    armatures := [],
    settings :=
      { objs_collection_original := none, objs_collection_created := some 5,
        rig := none, is_objects_prepared := false, bake_frame_start := 0,
        bake_frame_end := 250, name_suffix := "_Solid",
        weight_threshold := mkRat 3 10 },
    activeObj := none, activeBone := none, mode := "OBJECT", nextId := 10 }

/-- An already-suffixed object with a plain group name: renaming it is
stable. -/
def namingWitObj : Obj :=
  { oid := 1, name := "X_Solid", data := ObjData.mesh namingCexMesh,
    vertex_groups := ["B"], modifiers := [], parentBone := none,
    selected := false, originCentered := false, animBaked := none }

/-- A session state with `prepared == false` and no source collection. -/
def unpreparedNoCollScene : Scene :=
  { objects := [], collections := [], armatures := [],
    settings :=
      { objs_collection_original := none, objs_collection_created := none,
        rig := none, is_objects_prepared := false, bake_frame_start := 0,
        bake_frame_end := 250, name_suffix := "_Solid",
        weight_threshold := mkRat 3 10 },
    activeObj := none, activeBone := none, mode := "OBJECT", nextId := 0 }

/-- A session state with `prepared == false` but collection and rig set. -/
def unpreparedConfiguredScene : Scene :=
  { objects := [], collections := [], armatures := [],
    settings :=
      { objs_collection_original := some 0, objs_collection_created := none,
        rig := some 2, is_objects_prepared := false, bake_frame_start := 0,
        bake_frame_end := 250, name_suffix := "_Solid",
        weight_threshold := mkRat 3 10 },
    activeObj := none, activeBone := none, mode := "OBJECT", nextId := 3 }

/-- A rig whose armature data-block is not named `"Armature"`, in a file
that also holds an unrelated data-block named `"Armature"`. -/
def wrongArmRig : Obj :=
  { oid := 0, name := "Rig", data := ObjData.armature "RigData",
    vertex_groups := [], modifiers := [], parentBone := none,
    selected := false, originCentered := false, animBaked := none }

def wrongArmScene : Scene :=
  { objects := [wrongArmRig],
    collections := [],
    armatures := [{ aname := "RigData", bones := ["Bone"], pose_position := PosePos.POSE },
                  { aname := "Armature", bones := [], pose_position := PosePos.POSE }],
    settings :=
      { objs_collection_original := none, objs_collection_created := none,
        rig := some 0, is_objects_prepared := false, bake_frame_start := 0,
        bake_frame_end := 250, name_suffix := "_Solid",
        weight_threshold := mkRat 3 10 },
    activeObj := none, activeBone := none, mode := "OBJECT", nextId := 10 }

/-- A prepared-for-binding scene: a rig and an empty working collection. -/
def bindScene : Scene :=
  { objects := [{ oid := 0, name := "Rig", data := ObjData.armature "RigData",
                  vertex_groups := [], modifiers := [], parentBone := none,
                  selected := false, originCentered := false, animBaked := none }],
    collections := [{ cid := 5, cname := "Work_Solid", objIds := [] }],
    armatures := [{ aname := "RigData", bones := ["Bone"], pose_position := PosePos.REST }],
    settings :=
      { objs_collection_original := none, objs_collection_created := some 5,
        rig := some 0, is_objects_prepared := false, bake_frame_start := 0,
        bake_frame_end := 250, name_suffix := "_Solid",
        weight_threshold := mkRat 3 10 },
    activeObj := none, activeBone := none, mode := "OBJECT", nextId := 10 }

/-- A source collection holding one eligible and one ineligible object,
with a configured rig. -/
def eligRig : Obj :=
  { oid := 0, name := "Rig", data := ObjData.armature "Armature",
    vertex_groups := [], modifiers := [], parentBone := none,
    selected := false, originCentered := false, animBaked := none }

def eligMeshObj : Obj :=
  { oid := 2, name := "Skin", data := ObjData.mesh emptyGroupMesh,
    vertex_groups := ["A"],
    modifiers := [{ mtype := ModType.ARMATURE, object := some 0 }],
    parentBone := none, selected := false, originCentered := false, animBaked := none }

def ineligMeshObj : Obj :=
  { oid := 3, name := "Prop", data := ObjData.mesh emptyGroupMesh,
    vertex_groups := [], modifiers := [], parentBone := none,
    selected := false, originCentered := false, animBaked := none }

def eligScene : Scene :=
  { objects := [eligRig, eligMeshObj, ineligMeshObj],
    collections := [{ cid := 1, cname := "Source", objIds := [2, 3] }],
    armatures := [{ aname := "Armature", bones := ["A"], pose_position := PosePos.POSE }],
    settings :=
      { objs_collection_original := some 1, objs_collection_created := none,
        rig := some 0, is_objects_prepared := false, bake_frame_start := 0,
        bake_frame_end := 250, name_suffix := "_Solid",
        weight_threshold := mkRat 3 10 },
    activeObj := none, activeBone := none, mode := "OBJECT", nextId := 10 }

/-- A fully configured scene for a prepare run (empty source collection). -/
def prepScene : Scene :=
  { objects := [{ oid := 0, name := "Rig", data := ObjData.armature "Armature",
                  vertex_groups := [], modifiers := [], parentBone := none,
                  selected := false, originCentered := false, animBaked := none }],
    collections := [{ cid := 1, cname := "Source", objIds := [] }],
    armatures := [{ aname := "Armature", bones := ["A"], pose_position := PosePos.POSE }],
    settings :=
      { objs_collection_original := some 1, objs_collection_created := none,
        rig := some 0, is_objects_prepared := false, bake_frame_start := 0,
        bake_frame_end := 250, name_suffix := "_Solid",
        weight_threshold := mkRat 3 10 },
    activeObj := none, activeBone := none, mode := "OBJECT", nextId := 10 }

/-! ## List and string lemmas -/

theorem find?_append_some {α : Type} {p : α → Bool} {l₁ l₂ : List α} {a : α}
    (h : l₁.find? p = some a) : (l₁ ++ l₂).find? p = some a := by
  induction l₁ with
  | nil => simp [List.find?] at h
  | cons x xs ih =>
    simp only [List.cons_append]
    by_cases hx : p x
    · rw [List.find?_cons_of_pos _ hx] at h ⊢; exact h
    · rw [List.find?_cons_of_neg _ (by simpa using hx)] at h ⊢
      exact ih h

theorem find?_filter_some {α : Type} {p q : α → Bool} {l : List α} {a : α}
    (h : l.find? p = some a) (hq : q a = true) : (l.filter q).find? p = some a := by
  induction l with
  | nil => simp [List.find?] at h
  | cons x xs ih =>
    by_cases hx : p x
    · rw [List.find?_cons_of_pos _ hx] at h
      cases h
      rw [List.filter_cons, if_pos hq, List.find?_cons_of_pos _ hx]
    · rw [List.find?_cons_of_neg _ (by simpa using hx)] at h
      rw [List.filter_cons]
      by_cases hqx : q x
      · rw [if_pos hqx, List.find?_cons_of_neg _ (by simpa using hx)]
        exact ih h
      · rw [if_neg hqx]; exact ih h

theorem find?_map_pred {α : Type} {p : α → Bool} {f : α → α}
    (hf : ∀ x, p (f x) = p x) (l : List α) :
    (l.map f).find? p = (l.find? p).map f := by
  induction l with
  | nil => rfl
  | cons x xs ih =>
    by_cases hx : p x
    · simp only [List.map_cons]
      rw [List.find?_cons_of_pos _ ((hf x).trans hx), List.find?_cons_of_pos _ hx]
      rfl
    · simp only [List.map_cons]
      rw [List.find?_cons_of_neg _ (by simp [hf x, hx]),
          List.find?_cons_of_neg _ (by simpa using hx)]
      exact ih

theorem foldl_preserve {α β : Type} {P : β → Prop} {step : β → α → β}
    (h : ∀ b a, P b → P (step b a)) : ∀ (l : List α) (b : β), P b → P (l.foldl step b)
  | [], _, hb => hb
  | a :: l, b, hb => foldl_preserve h l (step b a) (h b a hb)

theorem startsWithSeq_iff {pat s : List Char} :
    startsWithSeq pat s = true ↔ pat = s.take pat.length := by
  simp [startsWithSeq]

theorem startsWithSeq_refl_append (pat r : List Char) :
    startsWithSeq pat (pat ++ r) = true := by
  rw [startsWithSeq_iff, List.take_append_eq_append_take, List.take_length,
      Nat.sub_self, List.take_zero, List.append_nil]

theorem occursB_of_startsWith {pat : List Char} {c : Char} {rest : List Char}
    (h : startsWithSeq pat (c :: rest) = true) : occursB pat (c :: rest) = true := by
  simp [occursB, h]

theorem occursB_length_le {pat s : List Char} (h : occursB pat s = true) :
    pat.length ≤ s.length := by
  induction s with
  | nil =>
    simp [occursB, List.isEmpty_iff] at h
    simp [h]
  | cons c rest ih =>
    simp only [occursB, Bool.or_eq_true] at h
    rcases h with h | h
    · rw [startsWithSeq_iff] at h
      calc pat.length = ((c :: rest).take pat.length).length := by rw [← h]
        _ ≤ (c :: rest).length := by
            rw [List.length_take]; exact Nat.min_le_right _ _
    · exact Nat.le_trans (ih h) (by simp)

theorem occursB_append_self {pat : List Char} (hne : pat ≠ []) (r : List Char) :
    occursB pat (pat ++ r) = true := by
  cases pat with
  | nil => exact absurd rfl hne
  | cons p ps =>
    rw [List.cons_append]
    exact occursB_of_startsWith (by rw [← List.cons_append]; exact startsWithSeq_refl_append _ _)

theorem unbordered_no_border {p : List Char} (h : unbordered p = true) {k : Nat}
    (hk0 : 0 < k) (hkl : k < p.length) : p.take k ≠ p.drop (p.length - k) := by
  have := List.all_eq_true.mp h k (List.mem_range.mpr hkl)
  simp only [Bool.or_eq_true, beq_iff_eq, decide_eq_true_eq] at this
  rcases this with h0 | hne
  · omega
  · exact hne

theorem startsWithSeq_self (pat : List Char) : startsWithSeq pat pat = true := by
  rw [startsWithSeq_iff, List.take_length]

/-- A match of `pat` at the start of `a ++ pat`, with `a` nonempty, forces
either an occurrence of `pat` inside `a` or a border of `pat`. -/
theorem startsWith_append_false {pat a : List Char} (hne : pat ≠ [])
    (hub : unbordered pat = true) (hocc : occursB pat a = false) (hane : a ≠ []) :
    startsWithSeq pat (a ++ pat) = false := by
  by_contra hcon
  rw [Bool.not_eq_false, startsWithSeq_iff] at hcon
  rcases le_or_lt pat.length a.length with hle | hgt
  · -- pat would be a prefix of a, hence occur in a
    rw [List.take_append_eq_append_take, Nat.sub_eq_zero_of_le hle, List.take_zero,
        List.append_nil] at hcon
    have hocc' : occursB pat a = true := by
      have ha : a = pat ++ a.drop pat.length := by
        conv_lhs => rw [← List.take_append_drop pat.length a, ← hcon]
      rw [ha]; exact occursB_append_self hne _
    rw [hocc'] at hocc
    simp at hocc
  · -- pat = a ++ pat.take k with k = pat.length - a.length: a border of pat
    have halen : 0 < a.length := List.length_pos.mpr hane
    rw [List.take_append_eq_append_take, List.take_of_length_le (Nat.le_of_lt hgt)] at hcon
    have hdrop : pat.drop a.length = pat.take (pat.length - a.length) := by
      conv_lhs => rw [hcon]
      rw [List.drop_left]
    have hnb := unbordered_no_border hub (k := pat.length - a.length) (by omega) (by omega)
    have hplen : pat.length - (pat.length - a.length) = a.length := by omega
    rw [hplen] at hnb
    exact hnb hdrop.symm

/-- Removing occurrences from a string without any is the identity. -/
theorem stripOcc_of_not_occurs {pat : List Char} :
    ∀ {s : List Char}, occursB pat s = false → stripOcc pat s = s := by
  intro s
  induction s with
  | nil => intro _; rfl
  | cons c rest ih =>
    intro h
    simp only [occursB, Bool.or_eq_false_iff] at h
    show stripOccAux pat 0 (c :: rest) = c :: rest
    rw [stripOccAux]
    rw [if_neg (by simp [h.1])]
    exact congrArg (c :: ·) (ih h.2)

theorem stripOccAux_skip (pat : List Char) :
    ∀ (k : Nat) (s : List Char), stripOccAux pat k s = stripOccAux pat 0 (s.drop k)
  | 0, s => by rw [List.drop_zero]
  | Nat.succ k, [] => by rw [stripOccAux, List.drop_nil, stripOccAux]
  | Nat.succ k, c :: rest => by
    rw [stripOccAux, List.drop_succ_cons, stripOccAux_skip pat k rest]

theorem stripOcc_self {pat : List Char} (hne : pat ≠ []) : stripOcc pat pat = [] := by
  cases hp : pat with
  | nil => exact absurd hp hne
  | cons p ps =>
    show stripOccAux (p :: ps) 0 (p :: ps) = []
    rw [stripOccAux]
    rw [if_pos ⟨startsWithSeq_self _, by simp⟩]
    rw [stripOccAux_skip]
    have hlen : (p :: ps).length - 1 = ps.length := by simp
    rw [hlen, List.drop_length, stripOccAux]

/-- Stripping `a ++ pat` when `pat` is unbordered and does not occur in `a`
removes exactly the final occurrence. -/
theorem stripOcc_append_self {pat : List Char} (hne : pat ≠ [])
    (hub : unbordered pat = true) :
    ∀ {a : List Char}, occursB pat a = false → stripOcc pat (a ++ pat) = a := by
  intro a
  induction a with
  | nil =>
    intro _
    rw [List.nil_append]
    exact stripOcc_self hne
  | cons c a' ih =>
    intro hocc
    have hocc2 : occursB pat a' = false := by
      simp only [occursB, Bool.or_eq_false_iff] at hocc
      exact hocc.2
    have hsw : startsWithSeq pat (c :: (a' ++ pat)) = false := by
      rw [← List.cons_append]
      exact startsWith_append_false hne hub hocc (by simp)
    show stripOccAux pat 0 ((c :: a') ++ pat) = c :: a'
    rw [List.cons_append, stripOccAux, if_neg (by simp [hsw])]
    exact congrArg (c :: ·) (ih hocc2)

/-- A doubled occurrence `pat ++ pat` cannot appear in `a ++ pat` when `pat`
does not occur in `a`. -/
theorem no_double_occurrence {pat : List Char} (hne : pat ≠ []) :
    ∀ {a : List Char}, occursB pat a = false →
      occursB (pat ++ pat) (a ++ pat) = false := by
  intro a
  induction a with
  | nil =>
    intro _
    rw [List.nil_append]
    by_contra hcon
    rw [Bool.not_eq_false] at hcon
    have hlen := occursB_length_le hcon
    rw [List.length_append] at hlen
    have hp : 0 < pat.length := List.length_pos.mpr hne
    omega
  | cons c a' ih =>
    intro hocc
    have hocc' := hocc
    simp only [occursB, Bool.or_eq_false_iff] at hocc'
    rw [List.cons_append, occursB, Bool.or_eq_false_iff]
    refine ⟨?_, ih hocc'.2⟩
    by_contra hcon
    rw [Bool.not_eq_false, startsWithSeq_iff] at hcon
    -- the first copy of pat would lie entirely inside c :: a'
    have hlen : (pat ++ pat).length ≤ (c :: (a' ++ pat)).length := by
      have hcl := congrArg List.length hcon
      rw [List.length_take] at hcl
      rw [hcl]
      exact Nat.min_le_right _ _
    rw [← List.cons_append, List.length_append, List.length_append] at hlen
    have hle : pat.length ≤ (c :: a').length := by simpa using hlen
    have h1 : pat = List.take pat.length (c :: (a' ++ pat)) := by
      have t1 : pat = (pat ++ pat).take pat.length := (List.take_left _ _).symm
      conv_lhs => rw [t1, hcon]
      rw [List.take_take, Nat.min_eq_left (by rw [List.length_append]; omega)]
    have hpre : pat = (c :: a').take pat.length := by
      conv_lhs => rw [h1]
      rw [← List.cons_append, List.take_append_eq_append_take, Nat.sub_eq_zero_of_le hle,
          List.take_zero, List.append_nil]
    have hocc3 : occursB pat (c :: a') = true := by
      have ha : c :: a' = pat ++ (c :: a').drop pat.length := by
        conv_lhs => rw [← List.take_append_drop pat.length (c :: a'), ← hpre]
      rw [ha]; exact occursB_append_self hne _
    rw [hocc3] at hocc
    simp at hocc

/-! ## Vertex retention lemmas -/

theorem nodupKeys_val_eq {gd : List (Nat × ℚ)} (hnd : (gd.map Prod.fst).Nodup)
    {k : Nat} {w w' : ℚ} (h1 : (k, w) ∈ gd) (h2 : (k, w') ∈ gd) : w = w' := by
  induction gd with
  | nil => simp at h1
  | cons p rest ih =>
    rw [List.map_cons, List.nodup_cons] at hnd
    rcases List.mem_cons.mp h1 with e1 | m1
    · rcases List.mem_cons.mp h2 with e2 | m2
      · exact (Prod.ext_iff.mp (e1.trans e2.symm)).2
      · exfalso
        have hk : k ∈ rest.map Prod.fst := List.mem_map_of_mem Prod.fst m2
        apply hnd.1
        rw [← e1]
        exact hk
    · rcases List.mem_cons.mp h2 with e2 | m2
      · exfalso
        have hk : k ∈ rest.map Prod.fst := List.mem_map_of_mem Prod.fst m1
        apply hnd.1
        rw [← e2]
        exact hk
      · exact ih hnd.2 m1 m2

theorem marked_false_parts {gd : List (Nat × ℚ)} {k : Nat} {t : ℚ} :
    markedForDeletion gd k t = false ↔
      (∃ p ∈ gd, p.1 = k) ∧ ∀ p ∈ gd, p.1 = k → t ≤ p.2 := by
  unfold markedForDeletion
  rw [Bool.or_eq_false_iff]
  constructor
  · rintro ⟨h1, h2⟩
    constructor
    · by_contra hno
      push_neg at hno
      have hnil : gd.filter (fun p => p.1 == k) = [] := by
        rw [List.filter_eq_nil_iff]
        intro p hp
        simp [hno p hp]
      rw [hnil] at h1
      simp at h1
    · intro p hp hpk
      by_contra hlt
      push_neg at hlt
      have htrue : gd.any (fun q => q.1 == k && decide (q.2 < t)) = true :=
        List.any_eq_true.mpr ⟨p, hp, by simp [hpk, hlt]⟩
      rw [htrue] at h2
      simp at h2
  · rintro ⟨⟨p, hp, hpk⟩, h2⟩
    constructor
    · have hmem : p ∈ gd.filter (fun q => q.1 == k) := by
        rw [List.mem_filter]
        exact ⟨hp, by simp [hpk]⟩
      have hne := List.ne_nil_of_mem hmem
      simp only [beq_eq_false_iff_ne, ne_eq, List.length_eq_zero]
      exact hne
    · rw [List.any_eq_false]
      intro q hq
      by_cases hqk : q.1 = k
      · have := h2 q hq hqk
        simp [hqk, not_lt.mpr this]
      · simp [hqk]

theorem mem_keptIndices {table : List (List (Nat × ℚ))} {k i : Nat} {t : ℚ} :
    i ∈ keptIndices table k t ↔
      i < table.length ∧ markedForDeletion (table.getD i []) k t = false := by
  unfold keptIndices
  rw [List.mem_filter, List.mem_range]
  simp

/-- A vertex is retained for group `k` iff its original weight-table entry
holds a pair `(k, w)` with `t ≤ w` (weights per vertex have unique group
keys, as the host guarantees). -/
theorem mem_keptIndices_iff {table : List (List (Nat × ℚ))} {k i : Nat} {t : ℚ}
    (hnd : ((table.getD i []).map Prod.fst).Nodup) :
    i ∈ keptIndices table k t ↔
      i < table.length ∧ ∃ w, (k, w) ∈ table.getD i [] ∧ t ≤ w := by
  rw [mem_keptIndices, and_congr_right_iff]
  intro _
  rw [marked_false_parts]
  constructor
  · rintro ⟨⟨p, hp, hpk⟩, h2⟩
    exact ⟨p.2, by rw [← hpk]; exact hp, h2 p hp hpk⟩
  · rintro ⟨w, hw, hwt⟩
    refine ⟨⟨(k, w), hw, rfl⟩, ?_⟩
    intro p hp hpk
    have hpw : p.2 = w := by
      have hmem : (k, p.2) ∈ table.getD i [] := by rw [← hpk]; exact hp
      exact nodupKeys_val_eq hnd hmem hw
    rw [hpw]
    exact hwt

/-- Without any key-uniqueness assumption, a retained vertex always has a
qualifying entry. -/
theorem mem_keptIndices_entry {table : List (List (Nat × ℚ))} {k i : Nat} {t : ℚ}
    (h : i ∈ keptIndices table k t) : ∃ p ∈ table.getD i [], p.1 = k ∧ t ≤ p.2 := by
  rcases (mem_keptIndices.mp h).2 |> marked_false_parts.mp with ⟨⟨p, hp, hpk⟩, h2⟩
  exact ⟨p, hp, hpk, h2 p hp hpk⟩

/-- A vertex all of whose entries are below the threshold is retained for no
group. -/
theorem below_threshold_never_kept {table : List (List (Nat × ℚ))} {i : Nat} {t : ℚ}
    (h : ∀ p ∈ table.getD i [], p.2 < t) : ∀ k, i ∉ keptIndices table k t := by
  intro k hk
  rcases mem_keptIndices_entry hk with ⟨p, hp, _, hpt⟩
  exact absurd (h p hp) (not_lt.mpr hpt)

/-! ## Characterizing the partition loop -/

theorem partDupsOf_get? (mesh_obj : Obj) (md : MeshData) (table : List (List (Nat × ℚ)))
    (t : ℚ) (suffix : String) :
    ∀ (l : List (Nat × String)) (n k : Nat),
      (partDupsOf mesh_obj md table t suffix n l).get? k =
        (l.get? k).map (fun p => mkPartObj mesh_obj md table t suffix (n + k) p.1 p.2)
  | [], n, k => by simp [partDupsOf]
  | (gidx, gname) :: rest, n, 0 => by simp [partDupsOf]
  | (gidx, gname) :: rest, n, Nat.succ k => by
    show (partDupsOf mesh_obj md table t suffix (n + 1) rest).get? k = _
    rw [partDupsOf_get? mesh_obj md table t suffix rest (n + 1) k]
    have : n + 1 + k = n + (k + 1) := by omega
    rw [this]
    rfl

theorem partDupsOf_length (mesh_obj : Obj) (md : MeshData) (table : List (List (Nat × ℚ)))
    (t : ℚ) (suffix : String) :
    ∀ (l : List (Nat × String)) (n : Nat),
      (partDupsOf mesh_obj md table t suffix n l).length = l.length
  | [], _ => rfl
  | _ :: rest, n => by
    show (partDupsOf mesh_obj md table t suffix (n + 1) rest).length + 1 = _
    rw [partDupsOf_length mesh_obj md table t suffix rest (n + 1)]
    rfl

/-- The group loop appends one rewritten duplicate per group, links each
into the created collection, and advances the id counter. -/
theorem plg_spec (mesh_obj : Obj) (md : MeshData) (table : List (List (Nat × ℚ))) (t : ℚ)
    (suffix : String) (cid : Nat) :
    ∀ (l : List (Nat × String)) (sc : Scene),
      partitionLoopGroups mesh_obj md table t suffix cid l sc =
        { sc with
            objects := sc.objects ++ partDupsOf mesh_obj md table t suffix sc.nextId l,
            collections := linkMany sc.collections cid
              ((partDupsOf mesh_obj md table t suffix sc.nextId l).map Obj.oid),
            nextId := sc.nextId + l.length }
  | [], sc => by simp [partitionLoopGroups, partDupsOf, linkMany]
  | (gidx, gname) :: rest, sc => by
    rw [partitionLoopGroups]
    rw [plg_spec mesh_obj md table t suffix cid rest]
    simp only [partDupsOf, List.map_cons, linkMany, List.foldl_cons, List.length_cons]
    rw [List.append_assoc, List.singleton_append]
    congr 1
    omega

theorem findColl_link {cols : List Collection} {cid : Nat} {c : Collection}
    (h : findColl cols cid = some c) (i : Nat) :
    findColl (linkToCollection cols cid i) cid = some { c with objIds := c.objIds ++ [i] } := by
  unfold findColl linkToCollection
  rw [find?_map_pred (fun x => by by_cases hx : x.cid == cid <;> simp [hx])]
  unfold findColl at h
  rw [h]
  have hc : (c.cid == cid) = true := by
    have := List.find?_some h
    simpa using this
  have hc' : c.cid = cid := by simpa using hc
  simp [hc']
theorem findColl_linkMany {cid : Nat} :
    ∀ (ids : List Nat) (cols : List Collection) (c : Collection),
      findColl cols cid = some c →
      findColl (linkMany cols cid ids) cid = some { c with objIds := c.objIds ++ ids }
  | [], cols, c, h => by simpa [linkMany] using h
  | i :: ids, cols, c, h => by
    show findColl (linkMany (linkToCollection cols cid i) cid ids) cid = _
    rw [findColl_linkMany ids (linkToCollection cols cid i) _ (findColl_link h i)]
    simp

/-- Full description of `separate_mesh_by_vertex_groups` on a mesh object
with the created collection set. -/
theorem separate_spec {sc : Scene} {oid : Nat} {mesh_obj : Obj} {md : MeshData} {cid : Nat}
    (hobj : getObj sc oid = some mesh_obj)
    (hmesh : mesh_obj.data = ObjData.mesh md)
    (hcoll : sc.settings.objs_collection_created = some cid) :
    separate_mesh_by_vertex_groups sc oid =
      removeObject (unlinkFromCollection
        { sc with
            objects := sc.objects ++ partDupsOf mesh_obj md (weightTable md)
              sc.settings.weight_threshold sc.settings.name_suffix sc.nextId
              mesh_obj.vertex_groups.enum,
            collections := linkMany sc.collections cid
              ((partDupsOf mesh_obj md (weightTable md) sc.settings.weight_threshold
                sc.settings.name_suffix sc.nextId mesh_obj.vertex_groups.enum).map Obj.oid),
            nextId := sc.nextId + mesh_obj.vertex_groups.enum.length }
        cid oid) oid := by
  simp only [separate_mesh_by_vertex_groups, hobj, hmesh, hcoll]
  rw [plg_spec]

theorem findColl_map {cols : List Collection} {cid : Nat} {g : Collection → Collection}
    (hg : ∀ c, (g c).cid = c.cid) :
    findColl (cols.map g) cid = (findColl cols cid).map g := by
  unfold findColl
  exact find?_map_pred (fun x => by rw [hg]) cols

theorem separate_objects_eq {sc : Scene} {oid : Nat} {mesh_obj : Obj} {md : MeshData}
    {cid : Nat} (hobj : getObj sc oid = some mesh_obj)
    (hmesh : mesh_obj.data = ObjData.mesh md)
    (hcoll : sc.settings.objs_collection_created = some cid) :
    (separate_mesh_by_vertex_groups sc oid).objects =
      (sc.objects ++ partDupsOf mesh_obj md (weightTable md) sc.settings.weight_threshold
        sc.settings.name_suffix sc.nextId mesh_obj.vertex_groups.enum).filter
        (fun o => o.oid != oid) := by
  rw [separate_spec hobj hmesh hcoll]
  rfl

theorem separate_getColl {sc : Scene} {oid : Nat} {mesh_obj : Obj} {md : MeshData}
    {cid : Nat} {c : Collection} (hobj : getObj sc oid = some mesh_obj)
    (hmesh : mesh_obj.data = ObjData.mesh md)
    (hcoll : sc.settings.objs_collection_created = some cid)
    (hc : getColl sc cid = some c) :
    getColl (separate_mesh_by_vertex_groups sc oid) cid =
      some { c with objIds :=
        (c.objIds.filter (fun i => i != oid) ++
          List.filter (fun i => i != oid)
            ((partDupsOf mesh_obj md (weightTable md) sc.settings.weight_threshold
              sc.settings.name_suffix sc.nextId mesh_obj.vertex_groups.enum).map Obj.oid)) } := by
  rw [separate_spec hobj hmesh hcoll]
  show findColl _ cid = _
  unfold removeObject
  rw [findColl_map
      (g := fun c => { c with objIds := c.objIds.filter (fun i => i != oid) })
      (fun c => rfl)]
  unfold unlinkFromCollection
  rw [findColl_map (g := fun c =>
        if c.cid == cid then { c with objIds := c.objIds.filter (fun i => i != oid) } else c)
      (fun c => by by_cases hx : c.cid == cid <;> simp [hx])]
  have hlinked := findColl_linkMany
    ((partDupsOf mesh_obj md (weightTable md) sc.settings.weight_threshold
        sc.settings.name_suffix sc.nextId mesh_obj.vertex_groups.enum).map Obj.oid)
    sc.collections c hc
  rw [hlinked]
  have hc' : c.cid = cid := by
    have := List.find?_some hc
    simpa using this
  simp [hc', List.filter_filter]

/-- The duplicate produced for the group at position `gidx` is an object of
the post-separation scene. -/
theorem separate_output_mem {sc : Scene} {oid : Nat} {mesh_obj : Obj} {md : MeshData}
    {cid : Nat} (hobj : getObj sc oid = some mesh_obj)
    (hmesh : mesh_obj.data = ObjData.mesh md)
    (hcoll : sc.settings.objs_collection_created = some cid)
    (hfresh : ∀ o ∈ sc.objects, o.oid < sc.nextId)
    {gidx : Nat} {gname : String}
    (hg : mesh_obj.vertex_groups.get? gidx = some gname) :
    mkPartObj mesh_obj md (weightTable md) sc.settings.weight_threshold
        sc.settings.name_suffix (sc.nextId + gidx) gidx gname ∈
      (separate_mesh_by_vertex_groups sc oid).objects := by
  have hmemsc : mesh_obj ∈ sc.objects := List.mem_of_find?_eq_some hobj
  have hoid : mesh_obj.oid = oid := by
    have := List.find?_some hobj
    simpa using this
  have holt : oid < sc.nextId := hoid ▸ hfresh mesh_obj hmemsc
  have hdupmem : mkPartObj mesh_obj md (weightTable md) sc.settings.weight_threshold
      sc.settings.name_suffix (sc.nextId + gidx) gidx gname ∈
      partDupsOf mesh_obj md (weightTable md) sc.settings.weight_threshold
        sc.settings.name_suffix sc.nextId mesh_obj.vertex_groups.enum := by
    apply List.get?_mem (n := gidx)
    rw [partDupsOf_get?, List.get?_enum, hg]
    rfl
  rw [separate_objects_eq hobj hmesh hcoll]
  rw [List.mem_filter]
  refine ⟨List.mem_append_right _ hdupmem, ?_⟩
  show ((mkPartObj _ _ _ _ _ _ _ _).oid != oid) = true
  have : (mkPartObj mesh_obj md (weightTable md) sc.settings.weight_threshold
      sc.settings.name_suffix (sc.nextId + gidx) gidx gname).oid = sc.nextId + gidx := rfl
  rw [this]
  simp only [bne_iff_ne, ne_eq]
  omega

/-! ## C1: partition completeness -/

/-- C1: for every source mesh object, every vertex group `g` on it (at
position `gidx`) and every vertex, the sub-mesh produced for `g` retains
exactly the vertices whose original weight-table entry carries a pair
`(g, w)` with `w` at least the configured threshold; a vertex all of whose
entries fall below the threshold is retained in no sub-mesh. -/
theorem partition_completeness
    (sc : Scene) (oid : Nat) (mesh_obj : Obj) (md : MeshData) (cid : Nat)
    (hobj : getObj sc oid = some mesh_obj)
    (hmesh : mesh_obj.data = ObjData.mesh md)
    (hcoll : sc.settings.objs_collection_created = some cid)
    (hfresh : ∀ o ∈ sc.objects, o.oid < sc.nextId)
    (hnd : ∀ v ∈ md.vertices, (v.groups.map Prod.fst).Nodup)
    (gidx : Nat) (gname : String)
    (hg : mesh_obj.vertex_groups.get? gidx = some gname) :
    ∃ o ∈ (separate_mesh_by_vertex_groups sc oid).objects,
      o.oid = sc.nextId + gidx ∧
      o.name = partitionName mesh_obj.name gname sc.settings.name_suffix ∧
      meshVerticesOf o = some ((keptIndices (weightTable md) gidx
        sc.settings.weight_threshold).filterMap (fun i => md.vertices.get? i)) ∧
      (∀ i, i ∈ keptIndices (weightTable md) gidx sc.settings.weight_threshold ↔
        (i < (weightTable md).length ∧
          ∃ w, (gidx, w) ∈ (weightTable md).getD i [] ∧ sc.settings.weight_threshold ≤ w)) ∧
      (∀ i, (∀ p ∈ (weightTable md).getD i [], p.2 < sc.settings.weight_threshold) →
        ∀ k, i ∉ keptIndices (weightTable md) k sc.settings.weight_threshold) := by
  have hnd' : ∀ i, (((weightTable md).getD i []).map Prod.fst).Nodup := by
    intro i
    by_cases hi : i < (weightTable md).length
    · rw [List.getD_eq_getElem _ _ hi]
      have hmem : (weightTable md)[i] ∈ weightTable md := List.getElem_mem _
      have hmem' : (weightTable md)[i] ∈ md.vertices.map (fun v => v.groups) := hmem
      rcases List.mem_map.mp hmem' with ⟨v, hv, hveq⟩
      rw [← hveq]
      exact hnd v hv
    · rw [List.getD_eq_default _ _ (le_of_not_lt hi)]
      simp
  refine ⟨mkPartObj mesh_obj md (weightTable md) sc.settings.weight_threshold
      sc.settings.name_suffix (sc.nextId + gidx) gidx gname,
    separate_output_mem hobj hmesh hcoll hfresh hg, rfl, rfl, rfl, ?_, ?_⟩
  · intro i
    exact mem_keptIndices_iff (hnd' i)
  · intro i hbelow k hk
    exact below_threshold_never_kept hbelow k hk

/-- C1 witness: the spec's worked example evaluated through the embedded
partitioner. -/
theorem partition_completeness_witness :
    (getObj exampleScene 1 = some exampleObj ∧
      exampleObj.data = ObjData.mesh exampleMesh ∧
      exampleScene.settings.objs_collection_created = some 5 ∧
      (∀ o ∈ exampleScene.objects, o.oid < exampleScene.nextId) ∧
      (∀ v ∈ exampleMesh.vertices, (v.groups.map Prod.fst).Nodup) ∧
      exampleObj.vertex_groups.get? 0 = some "A") ∧
    ∃ o ∈ (separate_mesh_by_vertex_groups exampleScene 1).objects,
      o.oid = exampleScene.nextId + 0 ∧
      o.name = partitionName exampleObj.name "A" exampleScene.settings.name_suffix ∧
      meshVerticesOf o = some ((keptIndices (weightTable exampleMesh) 0
        exampleScene.settings.weight_threshold).filterMap
          (fun i => exampleMesh.vertices.get? i)) ∧
      (∀ i, i ∈ keptIndices (weightTable exampleMesh) 0
          exampleScene.settings.weight_threshold ↔
        (i < (weightTable exampleMesh).length ∧
          ∃ w, (0, w) ∈ (weightTable exampleMesh).getD i [] ∧
            exampleScene.settings.weight_threshold ≤ w)) ∧
      (∀ i, (∀ p ∈ (weightTable exampleMesh).getD i [],
          p.2 < exampleScene.settings.weight_threshold) →
        ∀ k, i ∉ keptIndices (weightTable exampleMesh) k
          exampleScene.settings.weight_threshold) :=
  ⟨⟨by decide, by decide, by decide, by decide, by decide, by decide⟩,
    partition_completeness exampleScene 1 exampleObj exampleMesh 5
      (by decide) (by decide) (by decide) (by decide) (by decide) 0 "A" (by decide)⟩

/-! ## C2: partition disjointness -/

/-- C2 counterexample: the source vertex with weight 6/10 for both groups
`A` (index 0) and `B` (index 1) is retained by both produced sub-meshes
(ids 10 and 11), so the two sub-meshes share a vertex of the source mesh. -/
theorem partition_disjointness_cex :
    0 ∈ keptIndices (weightTable sharedVertexMesh) 0 (mkRat 3 10) ∧
    0 ∈ keptIndices (weightTable sharedVertexMesh) 1 (mkRat 3 10) ∧
    (getObj (separate_mesh_by_vertex_groups sharedVertexScene 1) 10).map meshVerticesOf =
      some (some [⟨[(0, mkRat 6 10), (1, mkRat 6 10)]⟩]) ∧
    (getObj (separate_mesh_by_vertex_groups sharedVertexScene 1) 11).map meshVerticesOf =
      some (some [⟨[(0, mkRat 6 10), (1, mkRat 6 10)]⟩]) := by
  decide

/-- C2 amended: the sub-meshes produced for two distinct vertex groups are
disjoint provided no vertex of the source mesh carries threshold-or-better
weights for two distinct groups; in general a vertex whose weights reach
the threshold for both groups is retained in both sub-meshes. -/
theorem partition_disjointness_amended
    (sc : Scene) (oid : Nat) (mesh_obj : Obj) (md : MeshData) (cid : Nat)
    (hobj : getObj sc oid = some mesh_obj)
    (hmesh : mesh_obj.data = ObjData.mesh md)
    (hcoll : sc.settings.objs_collection_created = some cid)
    (hfresh : ∀ o ∈ sc.objects, o.oid < sc.nextId)
    (hsingle : ∀ gd ∈ weightTable md, ∀ p ∈ gd, ∀ q ∈ gd,
      sc.settings.weight_threshold ≤ p.2 → sc.settings.weight_threshold ≤ q.2 → p.1 = q.1)
    (gidx1 gidx2 : Nat) (gname1 gname2 : String)
    (hg1 : mesh_obj.vertex_groups.get? gidx1 = some gname1)
    (hg2 : mesh_obj.vertex_groups.get? gidx2 = some gname2)
    (hne : gidx1 ≠ gidx2) :
    ∃ o1 ∈ (separate_mesh_by_vertex_groups sc oid).objects,
      ∃ o2 ∈ (separate_mesh_by_vertex_groups sc oid).objects,
        o1.oid = sc.nextId + gidx1 ∧ o2.oid = sc.nextId + gidx2 ∧
        meshVerticesOf o1 = some ((keptIndices (weightTable md) gidx1
          sc.settings.weight_threshold).filterMap (fun i => md.vertices.get? i)) ∧
        meshVerticesOf o2 = some ((keptIndices (weightTable md) gidx2
          sc.settings.weight_threshold).filterMap (fun i => md.vertices.get? i)) ∧
        ∀ i, ¬(i ∈ keptIndices (weightTable md) gidx1 sc.settings.weight_threshold ∧
               i ∈ keptIndices (weightTable md) gidx2 sc.settings.weight_threshold) := by
  refine ⟨mkPartObj mesh_obj md (weightTable md) sc.settings.weight_threshold
      sc.settings.name_suffix (sc.nextId + gidx1) gidx1 gname1,
    separate_output_mem hobj hmesh hcoll hfresh hg1,
    mkPartObj mesh_obj md (weightTable md) sc.settings.weight_threshold
      sc.settings.name_suffix (sc.nextId + gidx2) gidx2 gname2,
    separate_output_mem hobj hmesh hcoll hfresh hg2,
    rfl, rfl, rfl, rfl, ?_⟩
  rintro i ⟨h1, h2⟩
  rcases mem_keptIndices_entry h1 with ⟨p, hp, hpk, hpt⟩
  rcases mem_keptIndices_entry h2 with ⟨q, hq, hqk, hqt⟩
  have hi : i < (weightTable md).length := (mem_keptIndices.mp h1).1
  have hgd : (weightTable md).getD i [] ∈ weightTable md := by
    rw [List.getD_eq_getElem _ _ hi]
    exact List.getElem_mem _
  have := hsingle _ hgd p hp q hq hpt hqt
  rw [hpk, hqk] at this
  exact hne this

/-- C2 amended witness: on the spec's worked example no vertex reaches the
threshold for two groups, and the sub-meshes for `A` and `B` are disjoint. -/
theorem partition_disjointness_amended_witness :
    (getObj exampleScene 1 = some exampleObj ∧
      exampleObj.data = ObjData.mesh exampleMesh ∧
      exampleScene.settings.objs_collection_created = some 5 ∧
      (∀ o ∈ exampleScene.objects, o.oid < exampleScene.nextId) ∧
      (∀ gd ∈ weightTable exampleMesh, ∀ p ∈ gd, ∀ q ∈ gd,
        exampleScene.settings.weight_threshold ≤ p.2 →
        exampleScene.settings.weight_threshold ≤ q.2 → p.1 = q.1) ∧
      exampleObj.vertex_groups.get? 0 = some "A" ∧
      exampleObj.vertex_groups.get? 1 = some "B" ∧ (0 : Nat) ≠ 1) ∧
    ∃ o1 ∈ (separate_mesh_by_vertex_groups exampleScene 1).objects,
      ∃ o2 ∈ (separate_mesh_by_vertex_groups exampleScene 1).objects,
        o1.oid = exampleScene.nextId + 0 ∧ o2.oid = exampleScene.nextId + 1 ∧
        meshVerticesOf o1 = some ((keptIndices (weightTable exampleMesh) 0
          exampleScene.settings.weight_threshold).filterMap
            (fun i => exampleMesh.vertices.get? i)) ∧
        meshVerticesOf o2 = some ((keptIndices (weightTable exampleMesh) 1
          exampleScene.settings.weight_threshold).filterMap
            (fun i => exampleMesh.vertices.get? i)) ∧
        ∀ i, ¬(i ∈ keptIndices (weightTable exampleMesh) 0
                 exampleScene.settings.weight_threshold ∧
               i ∈ keptIndices (weightTable exampleMesh) 1
                 exampleScene.settings.weight_threshold) :=
  ⟨⟨by decide, by decide, by decide, by decide, by decide, by decide, by decide, by decide⟩,
    partition_disjointness_amended exampleScene 1 exampleObj exampleMesh 5
      (by decide) (by decide) (by decide) (by decide) (by decide) 0 1 "A" "B"
      (by decide) (by decide) (by decide)⟩

/-! ## C4: empty partitions are produced and linked -/

/-- C4: every vertex group of a partitioned mesh object yields an output
object that is linked into the created-objects collection, even when no
vertex qualifies for it; in that case the output has empty geometry. -/
theorem empty_partition_not_skipped
    (sc : Scene) (oid : Nat) (mesh_obj : Obj) (md : MeshData) (cid : Nat) (c : Collection)
    (hobj : getObj sc oid = some mesh_obj)
    (hmesh : mesh_obj.data = ObjData.mesh md)
    (hcoll : sc.settings.objs_collection_created = some cid)
    (hc : getColl sc cid = some c)
    (hfresh : ∀ o ∈ sc.objects, o.oid < sc.nextId)
    (gidx : Nat) (gname : String)
    (hg : mesh_obj.vertex_groups.get? gidx = some gname) :
    ∃ o ∈ (separate_mesh_by_vertex_groups sc oid).objects,
      ∃ c', getColl (separate_mesh_by_vertex_groups sc oid) cid = some c' ∧
        o.oid ∈ c'.objIds ∧
        o.oid = sc.nextId + gidx ∧
        o.name = partitionName mesh_obj.name gname sc.settings.name_suffix ∧
        (keptIndices (weightTable md) gidx sc.settings.weight_threshold = [] →
          meshVerticesOf o = some []) := by
  have hmemsc : mesh_obj ∈ sc.objects := List.mem_of_find?_eq_some hobj
  have hoid : mesh_obj.oid = oid := by
    have := List.find?_some hobj
    simpa using this
  have holt : oid < sc.nextId := hoid ▸ hfresh mesh_obj hmemsc
  refine ⟨mkPartObj mesh_obj md (weightTable md) sc.settings.weight_threshold
      sc.settings.name_suffix (sc.nextId + gidx) gidx gname,
    separate_output_mem hobj hmesh hcoll hfresh hg,
    _, separate_getColl hobj hmesh hcoll hc, ?_, rfl, rfl, ?_⟩
  · -- the duplicate's id is linked in the post-separation collection entry
    apply List.mem_append_right
    rw [List.mem_filter]
    constructor
    · apply List.get?_mem (n := gidx)
      rw [List.get?_map, partDupsOf_get?, List.get?_enum, hg]
      rfl
    · show ((sc.nextId + gidx != oid) = true)
      simp only [bne_iff_ne, ne_eq]
      omega
  · intro hempty
    show some ((keptIndices (weightTable md) gidx sc.settings.weight_threshold).filterMap
      (fun i => md.vertices.get? i)) = some []
    rw [hempty]
    rfl

/-- C4 witness: group `B` of the one-vertex mesh qualifies no vertex, yet
its output object exists, is linked, and has empty geometry. -/
theorem empty_partition_not_skipped_witness :
    (getObj emptyGroupScene 1 = some emptyGroupObj ∧
      emptyGroupObj.data = ObjData.mesh emptyGroupMesh ∧
      emptyGroupScene.settings.objs_collection_created = some 5 ∧
      getColl emptyGroupScene 5 = some { cid := 5, cname := "Work_Solid", objIds := [1] } ∧
      (∀ o ∈ emptyGroupScene.objects, o.oid < emptyGroupScene.nextId) ∧
      emptyGroupObj.vertex_groups.get? 1 = some "B" ∧
      keptIndices (weightTable emptyGroupMesh) 1
        emptyGroupScene.settings.weight_threshold = []) ∧
    ∃ o ∈ (separate_mesh_by_vertex_groups emptyGroupScene 1).objects,
      ∃ c', getColl (separate_mesh_by_vertex_groups emptyGroupScene 1) 5 = some c' ∧
        o.oid ∈ c'.objIds ∧
        o.oid = emptyGroupScene.nextId + 1 ∧
        o.name = partitionName emptyGroupObj.name "B"
          emptyGroupScene.settings.name_suffix ∧
        (keptIndices (weightTable emptyGroupMesh) 1
            emptyGroupScene.settings.weight_threshold = [] →
          meshVerticesOf o = some []) :=
  ⟨⟨by decide, by decide, by decide, by decide, by decide, by decide, by decide⟩,
    empty_partition_not_skipped emptyGroupScene 1 emptyGroupObj emptyGroupMesh 5
      { cid := 5, cname := "Work_Solid", objIds := [1] }
      (by decide) (by decide) (by decide) (by decide) (by decide) 1 "B" (by decide)⟩

/-! ## C3: naming -/

/-- C3 counterexample: with the default suffix `_Solid`, the naming step
applied once to the already-suffixed object `X_Solid` with the group
`Sol_Solidid` produces the doubled suffix `X_Solid_Solid`, both as a string
computation and through the partitioner. -/
theorem idempotent_naming_cex :
    partitionName "X_Solid" "Sol_Solidid" "_Solid" = "X_Solid_Solid" ∧
    occursB ("_Solid_Solid").data
      (partitionName "X_Solid" "Sol_Solidid" "_Solid").data = true ∧
    (getObj (separate_mesh_by_vertex_groups namingCexScene 1) 10).map Obj.name =
      some "X_Solid_Solid" := by
  decide

/-- C3 amended: the per-partition name is the source name, `"_"`, and the
group name, with every occurrence of the suffix removed and the suffix
appended once, applied to both the object and its mesh data. When the
suffix is non-empty and unbordered (true of the default `_Solid`) and the
stripped combined string contains no residual occurrence of the suffix, the
produced name ends in the suffix, never contains a doubled suffix, and
re-running the strip-and-append naming step on it returns it unchanged;
without the residual-occurrence condition a doubled suffix is reachable. -/
theorem idempotent_naming_amended
    (mesh_obj : Obj) (md : MeshData) (table : List (List (Nat × ℚ))) (t : ℚ)
    (suffix : String) (newId gidx : Nat) (gname : String)
    (hne : suffix.data ≠ [])
    (hub : unbordered suffix.data = true)
    (hres : occursB suffix.data
      (stripOcc suffix.data ((mesh_obj.name ++ "_" ++ gname)).data) = false) :
    (mkPartObj mesh_obj md table t suffix newId gidx gname).name =
      partitionName mesh_obj.name gname suffix ∧
    meshNameOf (mkPartObj mesh_obj md table t suffix newId gidx gname) =
      some (mkPartObj mesh_obj md table t suffix newId gidx gname).name ∧
    (∃ b, (partitionName mesh_obj.name gname suffix).data = b ++ suffix.data) ∧
    occursB (suffix.data ++ suffix.data)
      (partitionName mesh_obj.name gname suffix).data = false ∧
    pyReplace (partitionName mesh_obj.name gname suffix) suffix ++ suffix =
      partitionName mesh_obj.name gname suffix := by
  have hdata : (partitionName mesh_obj.name gname suffix).data =
      stripOcc suffix.data (mesh_obj.name ++ "_" ++ gname).data ++ suffix.data := by
    show (pyReplace (mesh_obj.name ++ "_" ++ gname) suffix ++ suffix).data = _
    rw [String.data_append]
    rfl
  refine ⟨rfl, rfl, ⟨_, hdata⟩, ?_, ?_⟩
  · rw [hdata]
    exact no_double_occurrence hne hres
  · have h5 : pyReplace (partitionName mesh_obj.name gname suffix) suffix =
        pyReplace (mesh_obj.name ++ "_" ++ gname) suffix := by
      unfold pyReplace
      rw [hdata]
      rw [stripOcc_append_self hne hub hres]
    rw [h5]
    rfl

/-- C3 amended witness: the object `X_Solid` with group `B` and suffix
`_Solid` is renamed `X_B_Solid`; re-running the strip-and-append step keeps
that name, and no doubled suffix appears. -/
theorem idempotent_naming_amended_witness :
    (("_Solid" : String).data ≠ [] ∧
      unbordered ("_Solid" : String).data = true ∧
      occursB ("_Solid" : String).data
        (stripOcc ("_Solid" : String).data
          ((namingWitObj.name ++ "_" ++ "B")).data) = false) ∧
    ((mkPartObj namingWitObj namingCexMesh [] (mkRat 3 10) "_Solid" 10 0 "B").name =
      partitionName namingWitObj.name "B" "_Solid" ∧
    meshNameOf (mkPartObj namingWitObj namingCexMesh [] (mkRat 3 10) "_Solid" 10 0 "B") =
      some (mkPartObj namingWitObj namingCexMesh [] (mkRat 3 10) "_Solid" 10 0 "B").name ∧
    (∃ b, (partitionName namingWitObj.name "B" "_Solid").data = b ++ ("_Solid" : String).data) ∧
    occursB (("_Solid" : String).data ++ ("_Solid" : String).data)
      (partitionName namingWitObj.name "B" "_Solid").data = false ∧
    pyReplace (partitionName namingWitObj.name "B" "_Solid") "_Solid" ++ "_Solid" =
      partitionName namingWitObj.name "B" "_Solid") :=
  ⟨⟨by decide, by decide, by decide⟩,
    idempotent_naming_amended namingWitObj namingCexMesh [] (mkRat 3 10) "_Solid" 10 0 "B"
      (by decide) (by decide) (by decide)⟩

/-! ## C5: bake precondition -/

/-- C5 counterexample: with `prepared == false` but the source collection
unset, the bake command cancels with the collection-not-set configuration
report, not the objects-not-prepared precondition report. -/
theorem bake_precondition_cex :
    unpreparedNoCollScene.settings.is_objects_prepared = false ∧
    bake_execute unpreparedNoCollScene =
      (OpStatus.CANCELLED, some OpReport.errCollectionNotSet, unpreparedNoCollScene) ∧
    OpReport.errCollectionNotSet ≠ OpReport.errNotPrepared := by
  decide

/-- C5 amended: whenever `prepared == false`, the bake command is cancelled
with a reported error and leaves the scene (hence the working set and all
its objects) unchanged; the report is the objects-not-prepared
precondition error exactly when the source collection and rig are both
configured, and a configuration error otherwise. -/
theorem bake_precondition_amended (sc : Scene)
    (h : sc.settings.is_objects_prepared = false) :
    (bake_execute sc).1 = OpStatus.CANCELLED ∧
    (bake_execute sc).2.2 = sc ∧
    (bake_execute sc).2.1 ≠ none ∧
    ((bake_execute sc).2.1 = some OpReport.errNotPrepared ↔
      (sc.settings.objs_collection_original ≠ none ∧ sc.settings.rig ≠ none)) ∧
    (sc.settings.objs_collection_original = none →
      (bake_execute sc).2.1 = some OpReport.errCollectionNotSet) ∧
    (sc.settings.objs_collection_original ≠ none → sc.settings.rig = none →
      (bake_execute sc).2.1 = some OpReport.errRigNotSet) := by
  by_cases h1 : sc.settings.objs_collection_original = none
  · simp [bake_execute, verify_operator, h1]
  · by_cases h2 : sc.settings.rig = none
    · simp [bake_execute, verify_operator, h1, h2]
    · simp [bake_execute, verify_operator, h1, h2, h]

/-- C5 amended witness: a configured but unprepared state is cancelled with
the precondition report and no scene change, the report agreeing with the
configured-iff characterization. -/
theorem bake_precondition_amended_witness :
    unpreparedConfiguredScene.settings.is_objects_prepared = false ∧
    ((bake_execute unpreparedConfiguredScene).1 = OpStatus.CANCELLED ∧
    (bake_execute unpreparedConfiguredScene).2.2 = unpreparedConfiguredScene ∧
    (bake_execute unpreparedConfiguredScene).2.1 ≠ none ∧
    ((bake_execute unpreparedConfiguredScene).2.1 = some OpReport.errNotPrepared ↔
      (unpreparedConfiguredScene.settings.objs_collection_original ≠ none ∧
        unpreparedConfiguredScene.settings.rig ≠ none)) ∧
    (unpreparedConfiguredScene.settings.objs_collection_original = none →
      (bake_execute unpreparedConfiguredScene).2.1 = some OpReport.errCollectionNotSet) ∧
    (unpreparedConfiguredScene.settings.objs_collection_original ≠ none →
      unpreparedConfiguredScene.settings.rig = none →
      (bake_execute unpreparedConfiguredScene).2.1 = some OpReport.errRigNotSet)) :=
  ⟨by decide, bake_precondition_amended unpreparedConfiguredScene (by decide)⟩

/-! ## C6: invalidation -/

/-- C6: assigning the rig reference or the source-collection reference
always resets `is_objects_prepared` to `false`, whatever its previous value
(in particular after a successful prepare set it to `true`). -/
theorem invalidation_resets_prepared (s : Settings) (v : Option Nat) :
    (Settings.setRig s v).is_objects_prepared = false ∧
    (Settings.setOriginal s v).is_objects_prepared = false :=
  ⟨rfl, rfl⟩

/-! ## C9: the rest-pose step targets a fixed-name armature -/

/-- C9 evidence: `set_rig_to_rest_pose` on an armature rig whose data-block
is named `RigData` completes without error, but leaves the rig's own
pose-state flag at POSE — it mutates the unrelated data-block that happens
to be named `"Armature"` instead.  The rig is therefore not in rest pose
after the set-rest-pose step of a prepare run. -/
theorem rest_pose_wrong_armature :
    (getObj wrongArmScene 0).map Obj.data = some (ObjData.armature "RigData") ∧
    (set_rig_to_rest_pose wrongArmScene 0).isSome = true ∧
    ((set_rig_to_rest_pose wrongArmScene 0).map
      (fun s => s.armatures.find? (fun a => a.aname == "RigData"))) =
      some (some { aname := "RigData", bones := ["Bone"], pose_position := PosePos.POSE }) ∧
    ((set_rig_to_rest_pose wrongArmScene 0).map
      (fun s => s.armatures.find? (fun a => a.aname == "Armature"))) =
      some (some { aname := "Armature", bones := [], pose_position := PosePos.REST }) := by
  decide

/-! ## C10: binding leaves the rig in POSE -/

theorem parentStep_armatures (rid : Nat) (arm : ArmData) (s : Scene) (oid : Nat) :
    (parentStep rid arm s oid).armatures = s.armatures := by
  unfold parentStep
  split
  · rfl
  · split
    · rfl
    · split
      · rfl
      · split
        · rfl
        · rfl

theorem setPose_all {arms : List ArmData} {an : String} :
    ∀ a ∈ setPosePositionByName arms an PosePos.POSE,
      a.aname = an → a.pose_position = PosePos.POSE := by
  intro a ha hname
  rcases List.mem_map.mp ha with ⟨a0, ha0, rfl⟩
  by_cases h : a0.aname = an
  · simp [h]
  · simp only [h, beq_iff_eq, if_neg] at hname ⊢
    exact absurd hname h

/-- C10: when the bone-binding step completes, the rig's own pose-state
flag is POSE, whatever it was before. -/
theorem binding_sets_pose_position
    (sc : Scene) (cid rid : Nat) (coll : Collection) (rig : Obj) (an : String) (arm : ArmData)
    (h1 : sc.settings.objs_collection_created = some cid)
    (h2 : getColl sc cid = some coll)
    (h3 : sc.settings.rig = some rid)
    (h4 : getObj sc rid = some rig)
    (h5 : rig.data = ObjData.armature an)
    (h6 : sc.armatures.find? (fun a => a.aname == an) = some arm) :
    ∃ sc', parent_objects_to_corresponding_bones sc = some sc' ∧
      (∃ a ∈ sc'.armatures, a.aname = an ∧ a.pose_position = PosePos.POSE) ∧
      (∀ a ∈ sc'.armatures, a.aname = an → a.pose_position = PosePos.POSE) := by
  have hfold : ∀ (ids : List Nat),
      (ids.foldl (parentStep rid arm) sc).armatures = sc.armatures := by
    intro ids
    exact foldl_preserve (P := fun s => s.armatures = sc.armatures)
      (fun b a hb => (parentStep_armatures rid arm b a).trans hb) ids sc rfl
  simp only [parent_objects_to_corresponding_bones, h1, h2, h3, h4, h5, h6]
  refine ⟨_, rfl, ?_, ?_⟩
  · have haname : arm.aname = an := by
      have := List.find?_some h6
      simpa using this
    have hmem : arm ∈ sc.armatures := List.mem_of_find?_eq_some h6
    refine ⟨{ arm with pose_position := PosePos.POSE }, ?_, haname, rfl⟩
    show _ ∈ setPosePositionByName _ an PosePos.POSE
    rw [hfold]
    unfold setPosePositionByName
    rcases List.mem_map.mp (List.mem_map_of_mem
      (fun a => if a.aname == an then { a with pose_position := PosePos.POSE } else a) hmem)
      with ⟨a0, ha0, heq⟩
    have : (if arm.aname == an then { arm with pose_position := PosePos.POSE } else arm) =
        { arm with pose_position := PosePos.POSE } := by
      simp [haname]
    rw [← this]
    exact List.mem_map_of_mem _ hmem
  · intro a ha hname
    exact setPose_all a ha hname

/-- C10 witness: after binding, the rig's data-block (initially in REST
from the preceding step) is switched to POSE. -/
theorem binding_sets_pose_position_witness :
    (bindScene.settings.objs_collection_created = some 5 ∧
      getColl bindScene 5 = some { cid := 5, cname := "Work_Solid", objIds := [] } ∧
      bindScene.settings.rig = some 0 ∧
      (getObj bindScene 0).map Obj.data = some (ObjData.armature "RigData") ∧
      bindScene.armatures.find? (fun a => a.aname == "RigData") =
        some { aname := "RigData", bones := ["Bone"], pose_position := PosePos.REST }) ∧
    ∃ sc', parent_objects_to_corresponding_bones bindScene = some sc' ∧
      (∃ a ∈ sc'.armatures, a.aname = "RigData" ∧ a.pose_position = PosePos.POSE) ∧
      (∀ a ∈ sc'.armatures, a.aname = "RigData" → a.pose_position = PosePos.POSE) :=
  ⟨⟨by decide, by decide, by decide, by decide, by decide⟩,
    binding_sets_pose_position bindScene 5 0
      { cid := 5, cname := "Work_Solid", objIds := [] }
      { oid := 0, name := "Rig", data := ObjData.armature "RigData",
        vertex_groups := [], modifiers := [], parentBone := none,
        selected := false, originCentered := false, animBaked := none }
      "RigData" { aname := "RigData", bones := ["Bone"], pose_position := PosePos.REST }
      (by decide) (by decide) (by decide) (by decide) (by decide) (by decide)⟩

/-! ## C8: materialization eligibility -/

theorem find?_append_of_none {α : Type} {p : α → Bool} {l₁ l₂ : List α}
    (h : l₁.find? p = none) : (l₁ ++ l₂).find? p = l₂.find? p := by
  induction l₁ with
  | nil => rfl
  | cons x xs ih =>
    rw [List.find?_eq_none] at h
    have hx : ¬p x = true := h x (by simp)
    rw [List.cons_append, List.find?_cons_of_neg _ hx]
    exact ih (List.find?_eq_none.mpr (fun a ha => h a (by simp [ha])))

theorem should_settings_eq {sc sc' : Scene} (h : sc'.settings = sc.settings) (o : Obj) :
    should_object_be_processed sc' o = should_object_be_processed sc o := by
  unfold should_object_be_processed
  rw [h]

theorem eligibleSrcs_stable (sc sc' : Scene) (l : List Obj)
    (hobjs : sc'.objects = sc.objects ++ l) (hset : sc'.settings = sc.settings) :
    ∀ ids, (∀ j ∈ ids, (getObj sc j).isSome = true) →
      eligibleSrcs sc' ids = eligibleSrcs sc ids := by
  intro ids
  induction ids with
  | nil => intro _; rfl
  | cons j rest ih =>
    intro hres
    have hj := hres j (by simp)
    rcases Option.isSome_iff_exists.mp hj with ⟨o, ho⟩
    have ho' : getObj sc' j = some o := by
      show findObj sc'.objects j = some o
      rw [hobjs]
      exact find?_append_some ho
    have htail := ih (fun a ha => hres a (by simp [ha]))
    rw [eligibleSrcs, eligibleSrcs, ho, ho']
    dsimp only
    rw [should_settings_eq hset o, htail]

/-- Field-wise description of the materialization loop. -/
theorem matLoop_fields (suffix : String) (cid : Nat) :
    ∀ (ids : List Nat) (sc : Scene),
      (∀ i ∈ ids, (getObj sc i).isSome = true) →
      (materializeLoop suffix cid ids sc).objects =
          sc.objects ++ dupsOf suffix sc.nextId (eligibleSrcs sc ids) ∧
      (materializeLoop suffix cid ids sc).collections =
          linkMany sc.collections cid
            ((dupsOf suffix sc.nextId (eligibleSrcs sc ids)).map Obj.oid) ∧
      (materializeLoop suffix cid ids sc).armatures = sc.armatures ∧
      (materializeLoop suffix cid ids sc).settings = sc.settings ∧
      (materializeLoop suffix cid ids sc).nextId =
          sc.nextId + (eligibleSrcs sc ids).length ∧
      (materializeLoop suffix cid ids sc).mode = sc.mode ∧
      (materializeLoop suffix cid ids sc).activeBone = sc.activeBone
  | [], sc => by
    intro _
    simp [materializeLoop, eligibleSrcs, dupsOf, linkMany]
  | i :: ids, sc => by
    intro hres
    have hi := hres i (by simp)
    rcases Option.isSome_iff_exists.mp hi with ⟨o, ho⟩
    rw [materializeLoop, ho, eligibleSrcs, ho]
    dsimp only
    by_cases hp : should_object_be_processed sc o
    · rw [if_pos hp, if_pos hp]
      set sc1 : Scene :=
        { sc with
            activeObj := some i,
            objects := sc.objects ++ [dupForWorking o suffix sc.nextId],
            collections := linkToCollection sc.collections cid
              (dupForWorking o suffix sc.nextId).oid,
            nextId := sc.nextId + 1 } with hsc1
      have hres1 : ∀ j ∈ ids, (getObj sc1 j).isSome = true := by
        intro j hj
        rcases Option.isSome_iff_exists.mp (hres j (by simp [hj])) with ⟨oj, hoj⟩
        have hoj' : getObj sc1 j = some oj := by
          show findObj sc1.objects j = some oj
          rw [hsc1]
          exact find?_append_some hoj
        rw [hoj']
        rfl
      have helig1 : eligibleSrcs sc1 ids = eligibleSrcs sc ids :=
        eligibleSrcs_stable sc sc1 [dupForWorking o suffix sc.nextId] rfl rfl ids
          (fun a ha => hres a (by simp [ha]))
      rcases matLoop_fields suffix cid ids sc1 hres1 with ⟨f1, f2, f3, f4, f5, f6, f7⟩
      rw [helig1] at f1 f2 f5
      refine ⟨?_, ?_, f3, f4, ?_, f6, f7⟩
      · rw [f1]
        show sc.objects ++ [dupForWorking o suffix sc.nextId] ++
          dupsOf suffix (sc.nextId + 1) (eligibleSrcs sc ids) = _
        rw [List.append_assoc, List.singleton_append]
        rfl
      · rw [f2]
        rfl
      · rw [f5, List.length_cons]
        show sc.nextId + 1 + (eligibleSrcs sc ids).length =
          sc.nextId + ((eligibleSrcs sc ids).length + 1)
        omega
    · rw [if_neg hp, if_neg hp]
      exact matLoop_fields suffix cid ids sc (fun a ha => hres a (by simp [ha]))

theorem eligibleSrcs_should (sc : Scene) :
    ∀ ids, ∀ o ∈ eligibleSrcs sc ids, should_object_be_processed sc o = true
  | [], o, ho => by simp [eligibleSrcs] at ho
  | i :: ids, o, ho => by
    rw [eligibleSrcs] at ho
    rcases hg : getObj sc i with _ | oi
    · rw [hg] at ho
      exact eligibleSrcs_should sc ids o ho
    · rw [hg] at ho
      dsimp only at ho
      by_cases hp : should_object_be_processed sc oi
      · rw [if_pos hp] at ho
        rcases List.mem_cons.mp ho with rfl | htail
        · exact hp
        · exact eligibleSrcs_should sc ids o htail
      · rw [if_neg hp] at ho
        exact eligibleSrcs_should sc ids o ho

theorem mem_eligibleSrcs_of (sc : Scene) :
    ∀ ids (i : Nat) (o : Obj), i ∈ ids → getObj sc i = some o →
      should_object_be_processed sc o = true → o ∈ eligibleSrcs sc ids
  | [], i, o, hi, _, _ => by simp at hi
  | j :: ids, i, o, hi, ho, hp => by
    rw [eligibleSrcs]
    rcases List.mem_cons.mp hi with rfl | htail
    · rw [ho]
      dsimp only
      rw [if_pos hp]
      exact List.mem_cons_self _ _
    · rcases hg : getObj sc j with _ | oj
      · exact mem_eligibleSrcs_of sc ids i o htail ho hp
      · dsimp only
        by_cases hpj : should_object_be_processed sc oj
        · rw [if_pos hpj]
          exact List.mem_cons_of_mem _ (mem_eligibleSrcs_of sc ids i o htail ho hp)
        · rw [if_neg hpj]
          exact mem_eligibleSrcs_of sc ids i o htail ho hp

/-- C8: with a rig configured, an object of the source collection receives
a working copy iff it is a mesh with at least one vertex group carrying an
armature modifier targeting the rig; the new collection holds exactly the
copies of the eligible objects, each copy (object and mesh data) named with
the suffix appended, and ineligible objects are skipped without error. -/
theorem materialization_eligibility
    (sc : Scene) (cidO rid : Nat) (collO : Collection)
    (h1 : sc.settings.objs_collection_original = some cidO)
    (h2 : getColl sc cidO = some collO)
    (h3 : sc.settings.rig = some rid)
    (hres : ∀ i ∈ collO.objIds, (getObj sc i).isSome = true)
    (hcfresh : ∀ c ∈ sc.collections, c.cid < sc.nextId) :
    ∃ sc' newColl,
      create_working_collection sc = (sc', some sc.nextId) ∧
      getColl sc' sc.nextId = some newColl ∧
      sc'.objects = sc.objects ++
        dupsOf sc.settings.name_suffix (sc.nextId + 1) (eligibleSrcs sc collO.objIds) ∧
      newColl.objIds = (dupsOf sc.settings.name_suffix (sc.nextId + 1)
        (eligibleSrcs sc collO.objIds)).map Obj.oid ∧
      (∀ i ∈ collO.objIds, ∀ o, getObj sc i = some o →
        (o ∈ eligibleSrcs sc collO.objIds ↔ should_object_be_processed sc o = true)) ∧
      (∀ o, should_object_be_processed sc o = true ↔
        (o.type = ObjType.MESH ∧ o.vertex_groups ≠ [] ∧
          ∃ m ∈ o.modifiers, m.mtype = ModType.ARMATURE ∧ m.object = some rid)) ∧
      (∀ o k, (dupForWorking o sc.settings.name_suffix k).name =
          o.name ++ sc.settings.name_suffix ∧
        meshNameOf (dupForWorking o sc.settings.name_suffix k) =
          (meshNameOf o).map (fun nm => nm ++ sc.settings.name_suffix)) := by
  set sc0 : Scene :=
    { sc with
        collections := sc.collections ++
          [{ cid := sc.nextId, cname := collO.cname ++ sc.settings.name_suffix, objIds := [] }],
        nextId := sc.nextId + 1 } with hsc0
  have hres0 : ∀ i ∈ collO.objIds, (getObj sc0 i).isSome = true := hres
  have helig0 : eligibleSrcs sc0 collO.objIds = eligibleSrcs sc collO.objIds :=
    eligibleSrcs_stable sc sc0 [] (by simp [hsc0]) rfl collO.objIds hres
  rcases matLoop_fields sc.settings.name_suffix sc.nextId collO.objIds sc0 hres0
    with ⟨f1, f2, _, _, _, _, _⟩
  rw [helig0] at f1 f2
  have hcreate : create_working_collection sc =
      ({ materializeLoop sc.settings.name_suffix sc.nextId collO.objIds sc0 with
          settings := Settings.setCreated
            (materializeLoop sc.settings.name_suffix sc.nextId collO.objIds sc0).settings
            (some sc.nextId) }, some sc.nextId) := by
    unfold create_working_collection create_new_collection
    rw [h1]
    dsimp only
    rw [h2]
  have hnone : findColl sc.collections sc.nextId = none := by
    unfold findColl
    rw [List.find?_eq_none]
    intro c hc
    have := hcfresh c hc
    simp only [beq_iff_eq]
    omega
  have hfound0 : findColl sc0.collections sc.nextId =
      some { cid := sc.nextId, cname := collO.cname ++ sc.settings.name_suffix,
             objIds := [] } := by
    show findColl (sc.collections ++ _) sc.nextId = _
    unfold findColl at hnone ⊢
    rw [find?_append_of_none hnone]
    simp [List.find?]
  have hfound2 : findColl
      (materializeLoop sc.settings.name_suffix sc.nextId collO.objIds sc0).collections
      sc.nextId =
      some { cid := sc.nextId, cname := collO.cname ++ sc.settings.name_suffix,
             objIds := (dupsOf sc.settings.name_suffix (sc.nextId + 1)
               (eligibleSrcs sc collO.objIds)).map Obj.oid } := by
    rw [f2]
    rw [findColl_linkMany _ _ _ hfound0]
    rw [List.nil_append]
  refine ⟨_, { cid := sc.nextId, cname := collO.cname ++ sc.settings.name_suffix,
               objIds := (dupsOf sc.settings.name_suffix (sc.nextId + 1)
                 (eligibleSrcs sc collO.objIds)).map Obj.oid },
    hcreate, hfound2, f1, rfl, ?_, ?_, ?_⟩
  · intro i hi o ho
    constructor
    · intro hmem
      exact eligibleSrcs_should sc collO.objIds o hmem
    · intro hp
      exact mem_eligibleSrcs_of sc collO.objIds i o hi ho hp
  · intro o
    unfold should_object_be_processed
    rw [h3]
    by_cases hm : o.type = ObjType.MESH
    · by_cases hv : o.vertex_groups = []
      · simp [hm, hv]
      · simp [hm, hv, List.length_eq_zero, List.any_eq_true]
    · simp [hm]
  · intro o k
    refine ⟨rfl, ?_⟩
    cases hd : o.data <;> simp [dupForWorking, meshNameOf, hd]

/-- C8 witness: of the two source objects, only the mesh with a vertex
group and an armature modifier targeting the rig is copied into the
working collection. -/
theorem materialization_eligibility_witness :
    (eligScene.settings.objs_collection_original = some 1 ∧
      getColl eligScene 1 = some { cid := 1, cname := "Source", objIds := [2, 3] } ∧
      eligScene.settings.rig = some 0 ∧
      (∀ i ∈ ({ cid := 1, cname := "Source", objIds := [2, 3] } : Collection).objIds,
        (getObj eligScene i).isSome = true) ∧
      (∀ c ∈ eligScene.collections, c.cid < eligScene.nextId) ∧
      eligibleSrcs eligScene [2, 3] = [eligMeshObj]) ∧
    ∃ sc' newColl,
      create_working_collection eligScene = (sc', some eligScene.nextId) ∧
      getColl sc' eligScene.nextId = some newColl ∧
      sc'.objects = eligScene.objects ++
        dupsOf eligScene.settings.name_suffix (eligScene.nextId + 1)
          (eligibleSrcs eligScene
            ({ cid := 1, cname := "Source", objIds := [2, 3] } : Collection).objIds) ∧
      newColl.objIds = (dupsOf eligScene.settings.name_suffix (eligScene.nextId + 1)
        (eligibleSrcs eligScene
          ({ cid := 1, cname := "Source", objIds := [2, 3] } : Collection).objIds)).map
          Obj.oid ∧
      (∀ i ∈ ({ cid := 1, cname := "Source", objIds := [2, 3] } : Collection).objIds,
        ∀ o, getObj eligScene i = some o →
        (o ∈ eligibleSrcs eligScene
            ({ cid := 1, cname := "Source", objIds := [2, 3] } : Collection).objIds ↔
          should_object_be_processed eligScene o = true)) ∧
      (∀ o, should_object_be_processed eligScene o = true ↔
        (o.type = ObjType.MESH ∧ o.vertex_groups ≠ [] ∧
          ∃ m ∈ o.modifiers, m.mtype = ModType.ARMATURE ∧ m.object = some 0)) ∧
      (∀ o k, (dupForWorking o eligScene.settings.name_suffix k).name =
          o.name ++ eligScene.settings.name_suffix ∧
        meshNameOf (dupForWorking o eligScene.settings.name_suffix k) =
          (meshNameOf o).map (fun nm => nm ++ eligScene.settings.name_suffix)) :=
  ⟨⟨by decide, by decide, by decide, by decide, by decide, by decide⟩,
    materialization_eligibility eligScene 1 0
      { cid := 1, cname := "Source", objIds := [2, 3] }
      (by decide) (by decide) (by decide) (by decide) (by decide)⟩

/-! ## C7: the prepare sequence -/

theorem findObj_map_data {objs : List Obj} {f : Obj → Obj}
    (hf : ∀ o, (f o).oid = o.oid ∧ (f o).data = o.data) (i : Nat) :
    (findObj (objs.map f) i).map Obj.data = (findObj objs i).map Obj.data := by
  unfold findObj
  rw [find?_map_pred (fun x => by rw [(hf x).1])]
  cases h : objs.find? (fun o => o.oid == i) with
  | none => rfl
  | some a => simp [(hf a).2]

theorem findColl_isSome_map {cols : List Collection} {g : Collection → Collection}
    (hg : ∀ c, (g c).cid = c.cid) (q : Nat) :
    (findColl (cols.map g) q).isSome = (findColl cols q).isSome := by
  rw [findColl_map hg]
  cases findColl cols q <;> rfl

theorem findColl_isSome_linkMany {cid q : Nat} :
    ∀ (ids : List Nat) (cols : List Collection),
      (findColl (linkMany cols cid ids) q).isSome = (findColl cols q).isSome
  | [], cols => rfl
  | i :: ids, cols => by
    show (findColl (linkMany (linkToCollection cols cid i) cid ids) q).isSome = _
    rw [findColl_isSome_linkMany ids (linkToCollection cols cid i)]
    exact findColl_isSome_map (fun c => by by_cases hx : c.cid == cid <;> simp [hx]) q

theorem separate_prepInv {A : List ArmData} {St : Settings} {cid rid : Nat} {an : String}
    (s : Scene) (oid' : Nat) (h : PrepInv A St cid rid an s) :
    PrepInv A St cid rid an (separate_mesh_by_vertex_groups s oid') := by
  rcases h with ⟨ha, hs, hcl, hr⟩
  rcases hobj : getObj s oid' with _ | mobj
  · unfold separate_mesh_by_vertex_groups
    rw [hobj]
    exact ⟨ha, hs, hcl, hr⟩
  · rcases hdata : mobj.data with md | an0 | _
    · rcases hcoll : s.settings.objs_collection_created with _ | cid2
      · unfold separate_mesh_by_vertex_groups
        rw [hobj]
        dsimp only
        rw [hdata]
        dsimp only
        rw [hcoll]
        exact ⟨ha, hs, hcl, hr⟩
      · rw [separate_spec hobj hdata hcoll]
        rcases Option.map_eq_some'.mp hr with ⟨ro, hro, hrod⟩
        have hrooid : ro.oid = rid := by
          have := List.find?_some hro
          simpa using this
        have hmoid : mobj.oid = oid' := by
          have := List.find?_some hobj
          simpa using this
        have hne : rid ≠ oid' := by
          intro hcontra
          rw [hcontra] at hro
          rw [hro] at hobj
          have : ro = mobj := by injection hobj
          rw [this, hdata] at hrod
          exact ObjData.noConfusion hrod
        refine ⟨ha, hs, ?_, ?_⟩
        · show (findColl (List.map _ (List.map _ (linkMany s.collections cid2 _))) cid).isSome
            = true
          rw [findColl_isSome_map
              (g := fun c => { c with objIds := c.objIds.filter (fun i => i != oid') })
              (fun c => rfl),
            findColl_isSome_map
              (g := fun c => if c.cid == cid2 then
                { c with objIds := c.objIds.filter (fun i => i != oid') } else c)
              (fun c => by by_cases hx : c.cid == cid2 <;> simp [hx]),
            findColl_isSome_linkMany]
          exact hcl
        · have h1 : (s.objects ++ partDupsOf mobj md (weightTable md)
              s.settings.weight_threshold s.settings.name_suffix s.nextId
              mobj.vertex_groups.enum).find? (fun o => o.oid == rid) = some ro :=
            find?_append_some hro
          have h2 := find?_filter_some (q := fun o => o.oid != oid') h1
            (by simp only [bne_iff_ne, ne_eq, hrooid]; simpa using hne)
          show ((List.filter (fun o => o.oid != oid')
              (s.objects ++ partDupsOf mobj md (weightTable md)
                s.settings.weight_threshold s.settings.name_suffix s.nextId
                mobj.vertex_groups.enum)).find? (fun o => o.oid == rid)).map Obj.data =
            some (ObjData.armature an)
          rw [h2]
          simp [hrod]
    · unfold separate_mesh_by_vertex_groups
      rw [hobj]
      dsimp only
      rw [hdata]
      exact ⟨ha, hs, hcl, hr⟩
    · unfold separate_mesh_by_vertex_groups
      rw [hobj]
      dsimp only
      rw [hdata]
      exact ⟨ha, hs, hcl, hr⟩

theorem updateObj_prepInv {A : List ArmData} {St : Settings} {cid rid : Nat} {an : String}
    {s : Scene} (i : Nat) {f : Obj → Obj}
    (hf : ∀ o, (f o).oid = o.oid ∧ (f o).data = o.data)
    (h : PrepInv A St cid rid an s) : PrepInv A St cid rid an (updateObj s i f) := by
  rcases h with ⟨ha, hs, hcl, hr⟩
  refine ⟨ha, hs, hcl, ?_⟩
  show (findObj (s.objects.map (fun o => if o.oid == i then f o else o)) rid).map Obj.data = _
  rw [findObj_map_data (fun o => by
    by_cases hx : (o.oid == i) = true <;> simp [hx, (hf o).1, (hf o).2])]
  exact hr

theorem deselectAll_prepInv {A : List ArmData} {St : Settings} {cid rid : Nat} {an : String}
    {s : Scene} (h : PrepInv A St cid rid an s) : PrepInv A St cid rid an (deselectAll s) := by
  rcases h with ⟨ha, hs, hcl, hr⟩
  refine ⟨ha, hs, hcl, ?_⟩
  show (findObj (s.objects.map (fun o => { o with selected := false })) rid).map Obj.data = _
  rw [findObj_map_data (f := fun o => { o with selected := false }) (fun o => ⟨rfl, rfl⟩)]
  exact hr

theorem clearModsStep_prepInv {A : List ArmData} {St : Settings} {cid rid : Nat} {an : String}
    {s : Scene} (i : Nat) (h : PrepInv A St cid rid an s) :
    PrepInv A St cid rid an (clearModsStep s i) :=
  updateObj_prepInv i
    (fun o => by by_cases hx : (o.type != ObjType.MESH) = true <;> simp [clearModsStep, hx]) h

theorem originStep_prepInv {A : List ArmData} {St : Settings} {cid rid : Nat} {an : String}
    {s : Scene} (i : Nat) (h : PrepInv A St cid rid an s) :
    PrepInv A St cid rid an (originStep s i) := by
  unfold originStep
  rcases hg : getObj s i with _ | o
  · exact h
  · dsimp only
    by_cases ht : (o.type != ObjType.MESH) = true
    · rw [if_pos ht]
      exact h
    · rw [if_neg ht]
      exact updateObj_prepInv (f := fun x => { x with selected := true, originCentered := true })
        i (fun o => ⟨rfl, rfl⟩) (deselectAll_prepInv h)

theorem partitionPhaseStep_prepInv {A : List ArmData} {St : Settings} {cid rid : Nat}
    {an : String} {s : Scene} (i : Nat) (h : PrepInv A St cid rid an s) :
    PrepInv A St cid rid an (partitionPhaseStep s i) := by
  unfold partitionPhaseStep
  split
  · exact h
  · split
    · split
      · exact separate_prepInv s i h
      · exact h
    · exact h

theorem partitionPhase_prepInv {A : List ArmData} {St : Settings} {cid rid : Nat}
    {an : String} {s : Scene} (cid' : Nat) (h : PrepInv A St cid rid an s) :
    PrepInv A St cid rid an (partitionPhase s cid') := by
  unfold partitionPhase
  rcases hg : getColl s cid' with _ | coll
  · exact h
  · exact foldl_preserve (fun b a hb => partitionPhaseStep_prepInv a hb) coll.objIds s h

theorem clear_object_modifiers_prepInv {A : List ArmData} {St : Settings} {cid rid : Nat}
    {an : String} {s : Scene} (h : PrepInv A St cid rid an s) :
    PrepInv A St cid rid an (clear_object_modifiers s) := by
  unfold clear_object_modifiers
  split
  · exact h
  · split
    · exact h
    · exact foldl_preserve (fun b a hb => clearModsStep_prepInv a hb) _ s h

theorem set_object_origins_to_center_prepInv {A : List ArmData} {St : Settings}
    {cid rid : Nat} {an : String} {s : Scene} (h : PrepInv A St cid rid an s) :
    PrepInv A St cid rid an (set_object_origins_to_center s) := by
  unfold set_object_origins_to_center
  split
  · exact h
  · split
    · exact h
    · exact foldl_preserve (fun b a hb => originStep_prepInv a hb) _ _ h

/-- With an armature rig resolvable and a data-block named `"Armature"`
present, the rest-pose step succeeds and only rewrites the armature list. -/
theorem set_rest_prepInv {A : List ArmData} {St : Settings} {cid rid : Nat} {an : String}
    {s : Scene} (h : PrepInv A St cid rid an s)
    (hA : A.any (fun a => a.aname == "Armature") = true) :
    set_rig_to_rest_pose s rid =
      some { s with armatures := setPosePositionByName s.armatures "Armature" PosePos.REST } ∧
    PrepInv (setPosePositionByName A "Armature" PosePos.REST) St cid rid an
      { s with armatures := setPosePositionByName s.armatures "Armature" PosePos.REST } := by
  rcases h with ⟨ha, hs, hcl, hr⟩
  rcases Option.map_eq_some'.mp hr with ⟨ro, hro, hrod⟩
  have htype : ro.type = ObjType.ARMATURE := by
    unfold Obj.type
    rw [hrod]
  constructor
  · unfold set_rig_to_rest_pose
    rw [hro]
    dsimp only
    rw [htype]
    rw [if_neg (by simp)]
    rw [if_pos (by rw [ha]; exact hA)]
  · refine ⟨by rw [ha], hs, hcl, ?_⟩
    show (getObj s rid).map Obj.data = some (ObjData.armature an)
    rw [hro]
    simp [hrod]

/-- With the created collection and an armature rig resolvable, the binding
step completes. -/
theorem parent_success {A' : List ArmData} {St : Settings} {cid rid : Nat} {an : String}
    {s : Scene} (h : PrepInv A' St cid rid an s)
    (hstc : St.objs_collection_created = some cid)
    (hstr : St.rig = some rid)
    (hfa : (A'.find? (fun a => a.aname == an)).isSome = true) :
    ∃ s', parent_objects_to_corresponding_bones s = some s' := by
  rcases h with ⟨ha, hs, hcl, hr⟩
  rcases Option.map_eq_some'.mp hr with ⟨ro, hro, hrod⟩
  rcases Option.isSome_iff_exists.mp hcl with ⟨coll, hcoll⟩
  have h1 : s.settings.objs_collection_created = some cid := by rw [hs]; exact hstc
  have h2 : s.settings.rig = some rid := by rw [hs]; exact hstr
  have hfa' : (s.armatures.find? (fun a => a.aname == an)).isSome = true := by
    rw [ha]; exact hfa
  rcases Option.isSome_iff_exists.mp hfa' with ⟨arm, harm⟩
  have hcoll' : getColl s cid = some coll := hcoll
  unfold parent_objects_to_corresponding_bones
  rw [h1]
  dsimp only
  rw [hcoll']
  dsimp only
  rw [h2]
  dsimp only
  rw [hro]
  dsimp only
  rw [hrod]
  dsimp only
  rw [harm]
  exact ⟨_, rfl⟩

/-- C7: with a source collection and a rig configured (and the host state
they require), the prepare command runs materialization, partitioning,
rest pose, modifier clearing, origin recentering and bone binding in that
order, and on completion sets the prepared flag. -/
theorem prepare_sequencing
    (sc : Scene) (cidO rid : Nat) (collO : Collection) (rig : Obj) (an : String)
    (h1 : sc.settings.objs_collection_original = some cidO)
    (h2 : getColl sc cidO = some collO)
    (h3 : sc.settings.rig = some rid)
    (h4 : getObj sc rid = some rig)
    (h5 : rig.data = ObjData.armature an)
    (h6 : sc.armatures.any (fun a => a.aname == "Armature") = true)
    (h7 : (sc.armatures.find? (fun a => a.aname == an)).isSome = true)
    (hres : ∀ i ∈ collO.objIds, (getObj sc i).isSome = true)
    (hcfresh : ∀ c ∈ sc.collections, c.cid < sc.nextId) :
    ∃ sc1 sc3 sc6,
      create_working_collection sc = (sc1, some sc.nextId) ∧
      set_rig_to_rest_pose (partitionPhase sc1 sc.nextId) rid = some sc3 ∧
      parent_objects_to_corresponding_bones
        (set_object_origins_to_center (clear_object_modifiers sc3)) = some sc6 ∧
      prepare_objects sc = some
        { sc6 with settings := { sc6.settings with is_objects_prepared := true } } ∧
      (∀ s', prepare_objects sc = some s' → s'.settings.is_objects_prepared = true) := by
  set sc0 : Scene :=
    { sc with
        collections := sc.collections ++
          [{ cid := sc.nextId, cname := collO.cname ++ sc.settings.name_suffix, objIds := [] }],
        nextId := sc.nextId + 1 } with hsc0
  have hres0 : ∀ i ∈ collO.objIds, (getObj sc0 i).isSome = true := hres
  rcases matLoop_fields sc.settings.name_suffix sc.nextId collO.objIds sc0 hres0
    with ⟨f1, f2, f3, f4, _, _, _⟩
  set sc1 : Scene :=
    { materializeLoop sc.settings.name_suffix sc.nextId collO.objIds sc0 with
        settings := Settings.setCreated
          (materializeLoop sc.settings.name_suffix sc.nextId collO.objIds sc0).settings
          (some sc.nextId) } with hsc1
  have hcreate : create_working_collection sc = (sc1, some sc.nextId) := by
    rw [hsc1]
    unfold create_working_collection create_new_collection
    rw [h1]
    dsimp only
    rw [h2]
  have hnone : findColl sc.collections sc.nextId = none := by
    unfold findColl
    rw [List.find?_eq_none]
    intro c hc
    have := hcfresh c hc
    simp only [beq_iff_eq]
    omega
  have hfound0 : (findColl sc0.collections sc.nextId).isSome = true := by
    show (findColl (sc.collections ++ _) sc.nextId).isSome = true
    unfold findColl at hnone ⊢
    rw [find?_append_of_none hnone]
    simp [List.find?]
  have hInv1 : PrepInv sc.armatures
      (Settings.setCreated sc.settings (some sc.nextId)) sc.nextId rid an sc1 := by
    refine ⟨?_, ?_, ?_, ?_⟩
    · show (materializeLoop sc.settings.name_suffix sc.nextId collO.objIds sc0).armatures = _
      exact f3
    · show Settings.setCreated
        (materializeLoop sc.settings.name_suffix sc.nextId collO.objIds sc0).settings
        (some sc.nextId) = _
      rw [f4]
    · show (findColl
        (materializeLoop sc.settings.name_suffix sc.nextId collO.objIds sc0).collections
        sc.nextId).isSome = true
      rw [f2, findColl_isSome_linkMany]
      exact hfound0
    · show (findObj
        (materializeLoop sc.settings.name_suffix sc.nextId collO.objIds sc0).objects
        rid).map Obj.data = _
      rw [f1]
      have hfind : (sc0.objects ++ dupsOf sc.settings.name_suffix sc0.nextId
          (eligibleSrcs sc0 collO.objIds)).find? (fun o => o.oid == rid) = some rig :=
        find?_append_some h4
      show ((sc0.objects ++ _).find? _).map Obj.data = _
      rw [hfind]
      simp [h5]
  have hInv2 := partitionPhase_prepInv sc.nextId hInv1
  rcases set_rest_prepInv hInv2 h6 with ⟨hrest, hInv3⟩
  have hInv5 := set_object_origins_to_center_prepInv (clear_object_modifiers_prepInv hInv3)
  have hfa : ((setPosePositionByName sc.armatures "Armature" PosePos.REST).find?
      (fun a => a.aname == an)).isSome = true := by
    unfold setPosePositionByName
    rw [find?_map_pred (fun x => by by_cases hx : x.aname == "Armature" <;> simp [hx])]
    rcases Option.isSome_iff_exists.mp h7 with ⟨arm, harm⟩
    rw [harm]
    rfl
  have hstr : (Settings.setCreated sc.settings (some sc.nextId)).rig = some rid := by
    show sc.settings.rig = some rid
    exact h3
  rcases parent_success hInv5 rfl hstr hfa with ⟨sc6, hparent⟩
  refine ⟨sc1, _, sc6, hcreate, hrest, hparent, ?_, ?_⟩
  · unfold prepare_objects
    rw [h1]
    dsimp only
    rw [h3]
    dsimp only
    rw [hcreate]
    dsimp only
    rw [hrest]
    dsimp only
    rw [hparent]
  · intro s' hs'
    unfold prepare_objects at hs'
    rw [h1] at hs'
    dsimp only at hs'
    rw [h3] at hs'
    dsimp only at hs'
    rw [hcreate] at hs'
    dsimp only at hs'
    rw [hrest] at hs'
    dsimp only at hs'
    rw [hparent] at hs'
    have : { sc6 with settings :=
        { sc6.settings with is_objects_prepared := true } } = s' := by
      injection hs'
    rw [← this]

/-- C7 witness: a configured scene runs the whole prepare sequence and ends
with the prepared flag set. -/
theorem prepare_sequencing_witness :
    (prepScene.settings.objs_collection_original = some 1 ∧
      getColl prepScene 1 = some { cid := 1, cname := "Source", objIds := [] } ∧
      prepScene.settings.rig = some 0 ∧
      getObj prepScene 0 = some
        { oid := 0, name := "Rig", data := ObjData.armature "Armature",
          vertex_groups := [], modifiers := [], parentBone := none,
          selected := false, originCentered := false, animBaked := none } ∧
      prepScene.armatures.any (fun a => a.aname == "Armature") = true ∧
      (prepScene.armatures.find? (fun a => a.aname == "Armature")).isSome = true ∧
      (∀ c ∈ prepScene.collections, c.cid < prepScene.nextId)) ∧
    ∃ sc1 sc3 sc6,
      create_working_collection prepScene = (sc1, some prepScene.nextId) ∧
      set_rig_to_rest_pose (partitionPhase sc1 prepScene.nextId) 0 = some sc3 ∧
      parent_objects_to_corresponding_bones
        (set_object_origins_to_center (clear_object_modifiers sc3)) = some sc6 ∧
      prepare_objects prepScene = some
        { sc6 with settings := { sc6.settings with is_objects_prepared := true } } ∧
      (∀ s', prepare_objects prepScene = some s' →
        s'.settings.is_objects_prepared = true) :=
  ⟨⟨by decide, by decide, by decide, by decide, by decide, by decide, by decide⟩,
    prepare_sequencing prepScene 1 0 { cid := 1, cname := "Source", objIds := [] }
      { oid := 0, name := "Rig", data := ObjData.armature "Armature",
        vertex_groups := [], modifiers := [], parentBone := none,
        selected := false, originCentered := false, animBaked := none }
      "Armature" (by decide) (by decide) (by decide) (by decide) (by decide) (by decide)
      (by decide) (by decide) (by decide)⟩
